import Mathlib

/-!
Verification of the event-management system (EMS) server against its
specification. The definitions below shallowly embed the data model
(`shared/schema.ts`), the storage layer (`server/storage.ts`), the REST
route handlers (`server/routes.ts`), the WebSocket fan-out
(`server/websocket.ts`) and the dashboard cache. Timestamps are modelled
as natural numbers (milliseconds); database rows are lists of records;
fallible database writes return `Except`.
-/

namespace EMS

/-- WebSocket.OPEN ready-state constant (the `ws` library uses 1). -/
def wsOPEN : Nat := 1

/-- A row of the `events` table (`shared/schema.ts`): organizer-owned, with a
date, optional time window and location. `eventDate` is a day number,
`createdAt` a millisecond timestamp. -/
structure Event where
  id : Nat
  userId : String
  name : String
  description : Option String
  eventDate : Nat
  startTime : Option String
  endTime : Option String
  location : Option String
  isActive : Bool
  createdAt : Nat
deriving Repr, DecidableEq

/-- A row of the `attendees` table (`shared/schema.ts`). `status` is a plain
string column (varchar, default "pending"); `qrCode` is a nullable unique
column; `checkinTime` and `checkoutTime` are nullable timestamps. -/
structure Attendee where
  id : Nat
  eventId : Nat
  name : String
  studentId : String
  email : Option String
  faculty : Option String
  major : Option String
  qrCode : Option String
  qrPath : Option String
  status : String
  checkinTime : Option Nat
  checkoutTime : Option Nat
  createdAt : Nat
deriving Repr, DecidableEq

/-- A row of the `checkin_logs` table (`shared/schema.ts`). The schema
declares `attendee_id ... references attendees.id onDelete cascade`. -/
structure CheckinLog where
  id : Nat
  attendeeId : Nat
  action : String
  timestamp : Nat
  ipAddress : Option String
  userAgent : String
deriving Repr, DecidableEq

/-- A collaborator grant, typed from the client's `Collaborator` interface in
`collaborators-manager.tsx`. The server under `src/` exposes no collaborator
routes or tables; these records exist so that statements about collaborator
permissions can be made, and no server operation reads them. -/
structure Collaborator where
  id : Nat
  eventId : Nat
  userId : String
  role : String
  permissions : List String
  invitedBy : Option String
deriving Repr, DecidableEq

/-- The dashboard statistics record returned by
`DatabaseStorage.getDashboardStats` (`server/storage.ts`). -/
structure DashboardStats where
  totalEvents : Nat
  totalStudents : Nat
  todayCheckins : Nat
  activeEvents : Nat
deriving Repr, DecidableEq

/-- Modelled from the spec: the `CacheManager` implementation
(`server/cacheManager.ts`) is not present under `src/`; the spec describes it
as "an in-memory cache" / "an in-memory expiring map" ("in-memory short-TTL
cache"). An entry is a value with its absolute expiry time. -/
structure CacheEntry where
  value : DashboardStats
  expiresAt : Nat
deriving Repr, DecidableEq

/-- The payload broadcast after a check-in: the new log row spread together
with the updated attendee, the event, the action and a timestamp
(`broadcastData` in the `POST /api/checkin` handler). -/
structure BroadcastData where
  log : CheckinLog
  attendee : Attendee
  event : Event
  action : String
  timestamp : Nat
deriving Repr, DecidableEq

/-- A JSON message sent over the WebSocket channel (`server/websocket.ts`). -/
inductive WSMessage where
  | connected (clientId : String) (userId : String)
  | checkinUpdate (data : BroadcastData)
  | statsUpdate (stats : DashboardStats)
  | attendeeUpdate (eventId : Nat) (attendee : Attendee)
deriving Repr, DecidableEq

/-- A connected WebSocket client as registered by `WebSocketManager`
(`server/websocket.ts`): its id, the user it registered as, its socket
ready-state and, for the model, the ordered list of messages delivered
to it. -/
structure WSClient where
  clientId : String
  userId : String
  readyState : Nat
  sent : List WSMessage
deriving Repr, DecidableEq

/-- The whole server state: the database tables, the dashboard cache and the
WebSocket client registry. `users` keeps only the user ids (the other user
columns are irrelevant to the properties considered). The `next...` counters
model the identity columns. -/
structure AppState where
  users : List String
  events : List Event
  attendees : List Attendee
  checkinLogs : List CheckinLog
  collaborators : List Collaborator
  cache : List (String × CacheEntry)
  clients : List WSClient
  nextEventId : Nat
  nextAttendeeId : Nat
  nextLogId : Nat
deriving Repr, DecidableEq

/-- The empty database: no rows, identity counters at 1. -/
def initialState : AppState :=
  { users := [], events := [], attendees := [], checkinLogs := []
    collaborators := [], cache := [], clients := []
    nextEventId := 1, nextAttendeeId := 1, nextLogId := 1 }

/-! ## Storage layer (`server/storage.ts`) -/

/-- `DatabaseStorage.getEventById`: select the event with the given id. -/
def getEventById (st : AppState) (id : Nat) : Option Event :=
  st.events.find? (fun e => e.id = id)

/-- `DatabaseStorage.getAttendeeById`: select the attendee with the given id. -/
def getAttendeeById (st : AppState) (id : Nat) : Option Attendee :=
  st.attendees.find? (fun a => a.id = id)

/-- `DatabaseStorage.getAttendeeByQrCode`: select the attendee holding the
given QR code. -/
def getAttendeeByQrCode (st : AppState) (qrCode : String) : Option Attendee :=
  st.attendees.find? (fun a => a.qrCode = some qrCode)

/-- Modelled from the spec: `storage.getAttendeeWithEvent` is called by the
`POST /api/checkin` handler ("Get attendee and event in single optimized
query") but its implementation is not under `src/`. Per the spec a QR code is
"used to look up an attendee", so this looks up the attendee by QR code and
joins its event. -/
def getAttendeeWithEvent (st : AppState) (qrCode : String) :
    Option (Attendee × Event) :=
  match getAttendeeByQrCode st qrCode with
  | none => none
  | some a =>
    match getEventById st a.eventId with
    | none => none
    | some e => some (a, e)

/-- The columns accepted by an attendee insert. `insertAttendeeSchema` omits
`id`, `createdAt`, `qrCode`, `qrPath`, `status`, `checkinTime` and
`checkoutTime`, but `storage.createAttendee` itself (used directly by the
bulk import) can also receive `qrCode`, `qrPath` and `status`; absent
optional columns fall back to their column defaults. -/
structure InsertAttendee where
  eventId : Nat
  name : String
  studentId : String
  email : Option String := none
  faculty : Option String := none
  major : Option String := none
  qrCode : Option String := none
  qrPath : Option String := none
  status : Option String := none
deriving Repr, DecidableEq

/-- A partial attendee update as passed to `DatabaseStorage.updateAttendee`
(`db.update(attendees).set(...)`). `none` means the column is not in the
update; for nullable columns the inner `Option` is the stored value. -/
structure AttendeePatch where
  eventId : Option Nat := none
  name : Option String := none
  studentId : Option String := none
  email : Option (Option String) := none
  faculty : Option (Option String) := none
  major : Option (Option String) := none
  qrCode : Option (Option String) := none
  qrPath : Option (Option String) := none
  status : Option String := none
  checkinTime : Option (Option Nat) := none
  checkoutTime : Option (Option Nat) := none
deriving Repr, DecidableEq

/-- Apply an update's column set to one row, leaving absent columns alone. -/
def applyPatch (a : Attendee) (p : AttendeePatch) : Attendee :=
  { a with
    eventId := p.eventId.getD a.eventId
    name := p.name.getD a.name
    studentId := p.studentId.getD a.studentId
    email := p.email.getD a.email
    faculty := p.faculty.getD a.faculty
    major := p.major.getD a.major
    qrCode := p.qrCode.getD a.qrCode
    qrPath := p.qrPath.getD a.qrPath
    status := p.status.getD a.status
    checkinTime := p.checkinTime.getD a.checkinTime
    checkoutTime := p.checkoutTime.getD a.checkoutTime }

/-- Whether inserting the row would violate the unique constraint on
`qr_code`: the insert carries a non-null code already held by some row. -/
def qrInsertConflict (st : AppState) (ins : InsertAttendee) : Bool :=
  match ins.qrCode with
  | some c => st.attendees.any (fun b => b.qrCode = some c)
  | none => false

/-- The row an attendee insert produces: `status` defaults to "pending",
`checkinTime` and `checkoutTime` to NULL, `id` to the next identity value. -/
def insertedAttendee (st : AppState) (ins : InsertAttendee) (now : Nat) : Attendee :=
  { id := st.nextAttendeeId, eventId := ins.eventId, name := ins.name
    studentId := ins.studentId, email := ins.email, faculty := ins.faculty
    major := ins.major, qrCode := ins.qrCode, qrPath := ins.qrPath
    status := ins.status.getD "pending", checkinTime := none
    checkoutTime := none, createdAt := now }

/-- `DatabaseStorage.createAttendee`: insert a row. The `qr_code` column is
declared `unique` in the schema, so inserting a non-null code already held by
another row raises a database error. -/
def createAttendee (st : AppState) (ins : InsertAttendee) (now : Nat) :
    Except String (Attendee × AppState) :=
  if qrInsertConflict st ins then
    .error "duplicate key value violates unique constraint"
  else
    .ok (insertedAttendee st ins now,
         { st with attendees := st.attendees ++ [insertedAttendee st ins now]
                   nextAttendeeId := st.nextAttendeeId + 1 })

/-- Whether an update would violate the unique constraint on `qr_code`: the
update sets a non-null code held by a different row. -/
def qrUpdateConflict (st : AppState) (id : Nat) (p : AttendeePatch) : Bool :=
  match p.qrCode with
  | some (some c) => st.attendees.any (fun b => ¬ b.id = id ∧ b.qrCode = some c)
  | _ => false

/-- `DatabaseStorage.updateAttendee`: update the row with the given id and
return it, or `none` when no row matches. Setting `qr_code` to a non-null
value held by a different row violates the schema's unique constraint and
raises a database error. -/
def updateAttendee (st : AppState) (id : Nat) (p : AttendeePatch) :
    Except String (Option Attendee × AppState) :=
  match st.attendees.find? (fun a => a.id = id) with
  | none => .ok (none, st)
  | some a =>
    if qrUpdateConflict st id p then
      .error "duplicate key value violates unique constraint"
    else
      .ok (some (applyPatch a p),
           { st with attendees :=
               st.attendees.map (fun b => if b.id = id then applyPatch b p else b) })

/-- `DatabaseStorage.deleteAttendee`: delete the row with the given id,
reporting whether a row was deleted. The `checkin_logs` rows referencing the
attendee are removed by the schema's `onDelete: cascade`. -/
def deleteAttendee (st : AppState) (id : Nat) : Bool × AppState :=
  if st.attendees.any (fun a => a.id = id) then
    (true,
     { st with attendees := st.attendees.filter (fun a => ¬ a.id = id)
               checkinLogs := st.checkinLogs.filter (fun l => ¬ l.attendeeId = id) })
  else (false, st)

/-- Modelled from the spec: `storage.deleteMultipleAttendees` is called by the
bulk-delete route but its implementation is not under `src/`; modelled as
deleting every listed attendee, with the schema's `onDelete: cascade`
removing their check-in logs, and returning how many rows were deleted. -/
def deleteMultipleAttendees (st : AppState) (ids : List Nat) : Nat × AppState :=
  ((st.attendees.filter (fun a => ids.contains a.id)).length,
   { st with attendees := st.attendees.filter (fun a => ¬ ids.contains a.id)
             checkinLogs := st.checkinLogs.filter (fun l => ¬ ids.contains l.attendeeId) })

/-- `DatabaseStorage.createCheckinLog`: insert a log row; `timestamp` defaults
to the insertion time, `id` to the next identity value. -/
def createCheckinLog (st : AppState) (attendeeId : Nat) (action : String)
    (ip : Option String) (ua : String) (now : Nat) : CheckinLog × AppState :=
  let log : CheckinLog :=
    { id := st.nextLogId, attendeeId := attendeeId, action := action
      timestamp := now, ipAddress := ip, userAgent := ua }
  (log, { st with checkinLogs := st.checkinLogs ++ [log]
                  nextLogId := st.nextLogId + 1 })

/-- The calendar day of a millisecond timestamp (`date(timestamp)` /
`current_date` in the stats query). -/
def dateOf (ms : Nat) : Nat := ms / 86400000

/-- `DatabaseStorage.getDashboardStats`: one aggregate over the user's events
left-joined to their attendees and those attendees' logs, counting distinct
events, distinct attendees, distinct logs with `action = 'check_in'` dated
today, and distinct active events dated today or later. -/
def getDashboardStats (st : AppState) (userId : String) (today : Nat) :
    DashboardStats :=
  let myEvents := st.events.filter (fun e => e.userId = userId)
  let myAttendees := st.attendees.filter (fun a => myEvents.any (fun e => e.id = a.eventId))
  let myLogs := st.checkinLogs.filter (fun l => myAttendees.any (fun a => a.id = l.attendeeId))
  { totalEvents := myEvents.length
    totalStudents := myAttendees.length
    todayCheckins :=
      (myLogs.filter (fun l => dateOf l.timestamp = today ∧ l.action = "check_in")).length
    activeEvents :=
      (myEvents.filter (fun e => e.isActive ∧ today ≤ e.eventDate)).length }

/-! ## Dashboard cache (spec-modelled) and WebSocket fan-out -/

/-- Modelled from the spec: `cacheManager.get` on the "in-memory expiring
map"; returns the entry's value while it has not expired. -/
def cacheGet (cache : List (String × CacheEntry)) (key : String) (now : Nat) :
    Option DashboardStats :=
  match cache.find? (fun kv => kv.1 = key) with
  | none => none
  | some kv => if now < kv.2.expiresAt then some kv.2.value else none

/-- Modelled from the spec: `cacheManager.set` stores a value under a key with
a time-to-live in milliseconds, replacing any previous entry. -/
def cacheSet (cache : List (String × CacheEntry)) (key : String)
    (value : DashboardStats) (ttl : Nat) (now : Nat) : List (String × CacheEntry) :=
  (key, { value := value, expiresAt := now + ttl }) ::
    cache.filter (fun kv => ¬ kv.1 = key)

/-- Modelled from the spec: `cacheManager.invalidate` removes a key's entry. -/
def cacheInvalidate (cache : List (String × CacheEntry)) (key : String) :
    List (String × CacheEntry) :=
  cache.filter (fun kv => ¬ kv.1 = key)

/-- `WebSocketManager.broadcastCheckinUpdate`: send a `checkin_update` message
to every registered client whose `userId` matches and whose socket is open. -/
def broadcastCheckinUpdate (clients : List WSClient) (userId : String)
    (data : BroadcastData) : List WSClient :=
  clients.map (fun c =>
    if c.userId = userId ∧ c.readyState = wsOPEN then
      { c with sent := c.sent ++ [WSMessage.checkinUpdate data] }
    else c)

/-- `WebSocketManager.broadcastStatsUpdate`: send a `stats_update` message to
every registered client whose `userId` matches and whose socket is open. -/
def broadcastStatsUpdate (clients : List WSClient) (userId : String)
    (stats : DashboardStats) : List WSClient :=
  clients.map (fun c =>
    if c.userId = userId ∧ c.readyState = wsOPEN then
      { c with sent := c.sent ++ [WSMessage.statsUpdate stats] }
    else c)

/-- `WebSocketManager.broadcastAttendeeUpdate`: send an `attendee_update`
message to every registered client whose `userId` matches and whose socket is
open. -/
def broadcastAttendeeUpdate (clients : List WSClient) (userId : String)
    (eventId : Nat) (attendee : Attendee) : List WSClient :=
  clients.map (fun c =>
    if c.userId = userId ∧ c.readyState = wsOPEN then
      { c with sent := c.sent ++ [WSMessage.attendeeUpdate eventId attendee] }
    else c)

/-- The `connection` handler of `WebSocketManager.initialize`: a connection
with an empty user id is closed, a connection for an unknown user is closed,
otherwise the client is registered (open) and sent a `connected`
confirmation. -/
def wsConnect (st : AppState) (clientId : String) (userId : String) : AppState :=
  if userId = "" then st
  else if st.users.contains userId then
    { st with clients := st.clients ++
        [{ clientId := clientId, userId := userId, readyState := wsOPEN
           sent := [WSMessage.connected clientId userId] }] }
  else st

/-- `DatabaseStorage.upsertUser`, reduced to the only column the model tracks:
make the user id present. -/
def upsertUser (st : AppState) (userId : String) : AppState :=
  if st.users.contains userId then st
  else { st with users := st.users ++ [userId] }

/-! ## QR-code helpers (`server/routes.ts`) -/

/-- Pad the decimal representation of a number with leading zeros to ten
digits (`.toString().padStart(10, '0')`). -/
def padTenDigits (n : Nat) : String :=
  let s := toString n
  String.mk (List.replicate (10 - s.length) '0') ++ s

/-- `generateUniqueQRCode`: format a random draw below 10^10 as
`CK_` followed by ten digits. The draw `Math.floor(Math.random() *
10000000000)` is an explicit argument. -/
def generateUniqueQRCode (randomNumber : Nat) : String :=
  "CK_" ++ padTenDigits (randomNumber % 10000000000)

/-- `ensureUniqueQRCode`: draw up to ten random codes, returning the first one
held by no attendee; if all ten draws are already held, fall back to
`CK_` followed by the current millisecond timestamp, without re-checking
uniqueness. `rand i` is the i-th random draw. -/
def ensureUniqueQRCode (st : AppState) (rand : Nat → Nat) (nowMs : Nat) : String :=
  match (List.range 10).find?
      (fun i => (getAttendeeByQrCode st (generateUniqueQRCode (rand i))).isNone) with
  | some i => generateUniqueQRCode (rand i)
  | none => "CK_" ++ toString nowMs

/-- `QRCode.toDataURL`: renders a code into a `data:` image URL. The PNG
payload is irrelevant here; only the `data:` scheme tag and the dependence on
the code matter, so the code itself stands in for the payload. -/
def qrToDataURL (code : String) : String :=
  "data:image/png;base64," ++ code

/-- JavaScript falsiness of an optional string (`!x` for a string field that
may be absent): true for an absent value and for the empty string. -/
def jsFalsy : Option String → Bool
  | none => true
  | some s => s = ""

/-! ## Route handlers (`server/routes.ts`) -/

/-- The outcome of a route: a success payload or an HTTP error status with its
message body. -/
inductive RouteResult (α : Type) where
  | ok (value : α)
  | err (status : Nat) (message : String)
deriving Repr, DecidableEq

/-- Whether a route outcome is a success. -/
def RouteResult.isOk {α : Type} : RouteResult α → Bool
  | .ok _ => true
  | .err _ _ => false

/-- The response of `POST /api/checkin`: on success the action taken, the
message, the attendee (spread with its new status) and the event. -/
inductive CheckinResponse where
  | ok (action : String) (message : String) (attendee : Attendee) (event : Event)
  | err (status : Nat) (message : String)
deriving Repr, DecidableEq

/-- Whether a check-in response is a success. -/
def CheckinResponse.isOk : CheckinResponse → Bool
  | .ok _ _ _ _ => true
  | .err _ _ => false

/-- The tail of the `POST /api/checkin` handler shared by both transitions,
after `storage.updateAttendee` has produced `st1`: build the response, then
(in the `setImmediate` block) insert the check-in log, read the dashboard
stats, invalidate the requester's stats cache entry and send the three
broadcasts. -/
def checkinFinish (st1 : AppState) (uid : String) (attendee : Attendee)
    (event : Event) (action newStatus message : String)
    (now : Nat) (ip : Option String) (ua : String) : CheckinResponse × AppState :=
  let (log, st2) := createCheckinLog st1 attendee.id action ip ua now
  let stats := getDashboardStats st2 uid (dateOf now)
  let updatedAttendee : Attendee :=
    { attendee with
      status := newStatus
      checkinTime := if action = "check_in" then some now else attendee.checkinTime
      checkoutTime := if action = "check_out" then some now else attendee.checkoutTime }
  let bdata : BroadcastData :=
    { log := log, attendee := updatedAttendee, event := event
      action := action, timestamp := now }
  let st3 := { st2 with cache := cacheInvalidate st2.cache ("stats:" ++ uid) }
  let st4 := { st3 with clients := broadcastCheckinUpdate st3.clients uid bdata }
  let st5 := { st4 with clients := broadcastStatsUpdate st4.clients uid stats }
  let st6 := { st5 with clients :=
      broadcastAttendeeUpdate st5.clients uid attendee.eventId updatedAttendee }
  (.ok action message { attendee with status := newStatus } event, st6)

/-- The `POST /api/checkin` handler: authenticate, require a (truthy) QR code
in the body, look up the attendee and its event, require the requester to own
the event, then advance the status linearly (pending to checked_in, checked_in
to checked_out), rejecting every other status. A thrown database error is
caught as a 500. -/
def checkinHandler (st : AppState) (userId : Option String)
    (qrCode : Option String) (now : Nat) (ip : Option String) (ua : String) :
    CheckinResponse × AppState :=
  match userId with
  | none => (.err 401 "User ID not found", st)
  | some uid =>
    if jsFalsy qrCode then (.err 400 "QR code is required", st)
    else
      match getAttendeeWithEvent st (qrCode.getD "") with
      | none => (.err 404 "Invalid QR code or attendee not found", st)
      | some (attendee, event) =>
        if ¬ event.userId = uid then
          (.err 403 "Bạn không có quyền check-in cho sự kiện này", st)
        else if attendee.status = "pending" then
          match updateAttendee st attendee.id
              { status := some "checked_in", checkinTime := some (some now) } with
          | .error _ => (.err 500 "Failed to process check-in", st)
          | .ok (_, st1) =>
            checkinFinish st1 uid attendee event "check_in" "checked_in"
              "Check-in successful!" now ip ua
        else if attendee.status = "checked_in" then
          match updateAttendee st attendee.id
              { status := some "checked_out", checkoutTime := some (some now) } with
          | .error _ => (.err 500 "Failed to process check-in", st)
          | .ok (_, st1) =>
            checkinFinish st1 uid attendee event "check_out" "checked_out"
              "Check-out successful!" now ip ua
        else (.err 400 "This attendee has already checked out", st)

/-- The `GET /api/dashboard/stats` handler: serve the cached value under
`stats:` + userId when one is present, otherwise compute the stats from the
database and cache them for 5000 ms. -/
def dashboardStatsHandler (st : AppState) (userId : String) (now : Nat) :
    DashboardStats × AppState :=
  let cacheKey := "stats:" ++ userId
  match cacheGet st.cache cacheKey now with
  | some cachedStats => (cachedStats, st)
  | none =>
    let stats := getDashboardStats st userId (dateOf now)
    (stats, { st with cache := cacheSet st.cache cacheKey stats 5000 now })

/-- A row of the recent-checkins query: the log columns joined with the full
attendee and event rows. -/
structure RecentCheckin where
  log : CheckinLog
  attendee : Attendee
  event : Event
deriving Repr, DecidableEq

/-- The inner joins of `getRecentCheckinsByUserId`: each log row paired with
the attendee it references and that attendee's event. -/
def joinCheckinRows (st : AppState) : List RecentCheckin :=
  st.checkinLogs.flatMap (fun l =>
    (st.attendees.filter (fun a => a.id = l.attendeeId)).flatMap (fun a =>
      (st.events.filter (fun e => e.id = a.eventId)).map (fun e =>
        { log := l, attendee := a, event := e })))

/-- Insert an element into a list sorted by descending key, keeping it
sorted. -/
def insertByKeyDesc {α : Type} (key : α → Nat) (x : α) : List α → List α
  | [] => [x]
  | y :: ys =>
    if key x ≤ key y then y :: insertByKeyDesc key x ys else x :: y :: ys

/-- Sort a list by descending key (`orderBy(desc(...))`). -/
def sortByKeyDesc {α : Type} (key : α → Nat) : List α → List α
  | [] => []
  | x :: xs => insertByKeyDesc key x (sortByKeyDesc key xs)

/-- `DatabaseStorage.getRecentCheckinsByUserId`: join the logs with their
attendees and events, keep the rows whose event belongs to the user, order by
descending timestamp and apply the limit. -/
def getRecentCheckinsByUserId (st : AppState) (userId : String) (limit : Nat) :
    List RecentCheckin :=
  (sortByKeyDesc (fun r => r.log.timestamp)
    ((joinCheckinRows st).filter (fun r => r.event.userId = userId))).take limit

/-- The `GET /api/checkin/recent` handler. `limitParam` is the result of
`parseInt(req.query.limit)` (`none` for an absent or non-numeric parameter);
`parseInt(...) || 10` replaces a missing, non-numeric or zero value by 10. -/
def recentCheckinsHandler (st : AppState) (userId : String)
    (limitParam : Option Int) : List RecentCheckin :=
  let limit : Int :=
    match limitParam with
    | some n => if n = 0 then 10 else n
    | none => 10
  getRecentCheckinsByUserId st userId limit.toNat

/-- The columns accepted by an event insert (`insertEventSchema` omits `id`
and `createdAt`). -/
structure InsertEvent where
  userId : String
  name : String
  description : Option String := none
  eventDate : Nat
  startTime : Option String := none
  endTime : Option String := none
  location : Option String := none
  isActive : Option Bool := none
deriving Repr, DecidableEq

/-- `DatabaseStorage.createEvent`: insert an event row; `isActive` defaults to
true, `id` to the next identity value. -/
def createEvent (st : AppState) (ins : InsertEvent) (now : Nat) :
    Event × AppState :=
  let e : Event :=
    { id := st.nextEventId, userId := ins.userId, name := ins.name
      description := ins.description, eventDate := ins.eventDate
      startTime := ins.startTime, endTime := ins.endTime
      location := ins.location, isActive := ins.isActive.getD true
      createdAt := now }
  (e, { st with events := st.events ++ [e], nextEventId := st.nextEventId + 1 })

/-- The `POST /api/events` handler after validation: the body with the
authenticated user id spread in. -/
def createEventHandler (st : AppState) (userId : String) (body : InsertEvent)
    (now : Nat) : Event × AppState :=
  createEvent st { body with userId := userId } now

/-- A partial event update (`insertEventSchema.partial()`), every column
optional. -/
structure EventPatch where
  userId : Option String := none
  name : Option String := none
  description : Option (Option String) := none
  eventDate : Option Nat := none
  startTime : Option (Option String) := none
  endTime : Option (Option String) := none
  location : Option (Option String) := none
  isActive : Option Bool := none
deriving Repr, DecidableEq

/-- Apply an event update's column set to one row. -/
def applyEventPatch (e : Event) (p : EventPatch) : Event :=
  { e with
    userId := p.userId.getD e.userId
    name := p.name.getD e.name
    description := p.description.getD e.description
    eventDate := p.eventDate.getD e.eventDate
    startTime := p.startTime.getD e.startTime
    endTime := p.endTime.getD e.endTime
    location := p.location.getD e.location
    isActive := p.isActive.getD e.isActive }

/-- `DatabaseStorage.updateEvent` wrapped by `PUT /api/events/:id`: update the
row with the given id, returning 404 when no row matches. -/
def updateEventHandler (st : AppState) (id : Nat) (p : EventPatch) :
    RouteResult Event × AppState :=
  match st.events.find? (fun e => e.id = id) with
  | none => (.err 404 "Event not found", st)
  | some e =>
    (.ok (applyEventPatch e p),
     { st with events := st.events.map (fun f => if f.id = id then applyEventPatch f p else f) })

/-- `DatabaseStorage.deleteEvent` wrapped by `DELETE /api/events/:id`: delete
the row matching both the id and the owning user. The schema cascades the
deletion to the event's attendees and, through them, to their check-in
logs. -/
def deleteEventHandler (st : AppState) (id : Nat) (userId : String) :
    RouteResult Unit × AppState :=
  if st.events.any (fun e => e.id = id ∧ e.userId = userId) then
    let removedIds := (st.attendees.filter (fun a => a.eventId = id)).map (fun a => a.id)
    (.ok (),
     { st with
       events := st.events.filter (fun e => ¬ (e.id = id ∧ e.userId = userId))
       attendees := st.attendees.filter (fun a => ¬ a.eventId = id)
       checkinLogs := st.checkinLogs.filter (fun l => ¬ removedIds.contains l.attendeeId) })
  else (.err 404 "Event not found", st)

/-- The attendee fields of a `POST /api/events/:eventId/attendees` body; a
missing `studentId` is the empty string (the handler tests JavaScript
falsiness). -/
structure AttendeeBody where
  name : String
  studentId : String
  email : Option String := none
  faculty : Option String := none
  major : Option String := none
deriving Repr, DecidableEq

/-- The `POST /api/events/:eventId/attendees` handler: require a truthy
`studentId`, generate a unique QR code and its data URL, validate through
`insertAttendeeSchema` — which omits `qrCode`, `qrPath` and `status`, so the
zod parse strips the generated values and the row is inserted without them —
and insert. A thrown error is caught as a 400. -/
def createAttendeeHandler (st : AppState) (eventId : Nat) (body : AttendeeBody)
    (rand : Nat → Nat) (nowMs : Nat) (now : Nat) : RouteResult Attendee × AppState :=
  if body.studentId = "" then (.err 400 "MSSV/MSNV là bắt buộc", st)
  else
    let _qrCode := ensureUniqueQRCode st rand nowMs
    let _qrDataUrl := qrToDataURL _qrCode
    let ins : InsertAttendee :=
      { eventId := eventId, name := body.name, studentId := body.studentId
        email := body.email, faculty := body.faculty, major := body.major
        qrCode := none, qrPath := none, status := none }
    match createAttendee st ins now with
    | .error _ => (.err 400 "Failed to create attendee", st)
    | .ok (a, st1) => (.ok a, st1)

/-- A `PUT /api/attendees/:id` body after `insertAttendeeSchema.partial()`:
only the plain attendee columns; `status`, `qrCode`, `qrPath` and the
timestamps are omitted by the schema and so can never appear. -/
structure AttendeeBodyPatch where
  eventId : Option Nat := none
  name : Option String := none
  studentId : Option String := none
  email : Option (Option String) := none
  faculty : Option (Option String) := none
  major : Option (Option String) := none
deriving Repr, DecidableEq

/-- The `PUT /api/attendees/:id` handler: update the validated columns,
returning 404 when no row matches and 400 on a thrown error. -/
def updateAttendeeHandler (st : AppState) (id : Nat) (body : AttendeeBodyPatch) :
    RouteResult Attendee × AppState :=
  let p : AttendeePatch :=
    { eventId := body.eventId, name := body.name, studentId := body.studentId
      email := body.email, faculty := body.faculty, major := body.major }
  match updateAttendee st id p with
  | .error _ => (.err 400 "Failed to update attendee", st)
  | .ok (none, st1) => (.err 404 "Attendee not found", st1)
  | .ok (some a, st1) => (.ok a, st1)

/-- The `DELETE /api/attendees/:id` handler (the QR-image file removal is
outside the database model): delete the row, 404 when absent. -/
def deleteAttendeeHandler (st : AppState) (id : Nat) : RouteResult Unit × AppState :=
  let (success, st1) := deleteAttendee st id
  if success then (.ok (), st1) else (.err 404 "Attendee not found", st1)

/-- The ownership filter of the `DELETE /api/attendees/bulk` handler: keep
the requested attendees that exist and whose event the requester owns. -/
def bulkDeleteValidAttendees (st : AppState) (userId : String)
    (attendeeIds : List Nat) : List Attendee :=
  attendeeIds.filterMap (fun id =>
    match getAttendeeById st id with
    | none => none
    | some a =>
      match getEventById st a.eventId with
      | none => none
      | some e => if e.userId = userId then some a else none)

/-- The `DELETE /api/attendees/bulk` handler: reject an empty id list, keep
the ids whose attendee exists and whose event the requester owns, reject when
none remain, otherwise delete them and invalidate the requester's stats cache
entry. Returns the deleted count and the requested count. -/
def bulkDeleteHandler (st : AppState) (userId : String) (attendeeIds : List Nat) :
    RouteResult (Nat × Nat) × AppState :=
  if attendeeIds = [] then
    (.err 400 "Danh sách ID sinh viên không hợp lệ", st)
  else
    let validAttendees := bulkDeleteValidAttendees st userId attendeeIds
    let validIds := validAttendees.map (fun a => a.id)
    if validIds = [] then
      (.err 403 "Bạn không có quyền xóa những sinh viên này", st)
    else
      let (deletedCount, st1) := deleteMultipleAttendees st validIds
      let st2 := { st1 with cache := cacheInvalidate st1.cache ("stats:" ++ userId) }
      (.ok (deletedCount, attendeeIds.length), st2)

/-- One parsed spreadsheet row of the bulk import; missing cells become the
empty string (`row[...] || ''`). -/
structure ImportRow where
  name : String
  studentId : String
  email : String := ""
  faculty : String := ""
  major : String := ""
deriving Repr, DecidableEq

/-- The creation loop of the bulk import: for each row generate a unique QR
code against the current table and insert the row with it; a row whose insert
throws is recorded as failed and skipped. `rand i` and `nowMs i` are the
random draws and clock reading for the i-th row; returns (created, failed,
state). -/
def bulkImportRows (eventId : Nat) (rand : Nat → Nat → Nat) (nowMs : Nat → Nat)
    (now : Nat) : List ImportRow → Nat → AppState → Nat × Nat × AppState
  | [], _, st => (0, 0, st)
  | row :: rest, i, st =>
    let qr := ensureUniqueQRCode st (rand i) (nowMs i)
    let ins : InsertAttendee :=
      { eventId := eventId, name := row.name, studentId := row.studentId
        email := some row.email, faculty := some row.faculty
        major := some row.major, qrCode := some qr
        qrPath := some (qrToDataURL qr), status := none }
    match createAttendee st ins now with
    | .error _ =>
      let (c, f, st1) := bulkImportRows eventId rand nowMs now rest (i + 1) st
      (c, f + 1, st1)
    | .ok (_, st1) =>
      let (c, f, st2) := bulkImportRows eventId rand nowMs now rest (i + 1) st1
      (c + 1, f, st2)

/-- The `POST /api/events/:eventId/attendees/bulk` handler after file
parsing: require the event to exist and be owned by the requester, keep the
rows with a name and a student id, reject when none remain, then run the
creation loop. -/
def bulkImportHandler (st : AppState) (userId : String) (eventId : Nat)
    (rows : List ImportRow) (rand : Nat → Nat → Nat) (nowMs : Nat → Nat)
    (now : Nat) : RouteResult (Nat × Nat) × AppState :=
  match getEventById st eventId with
  | none => (.err 404 "Sự kiện không tồn tại", st)
  | some event =>
    if ¬ event.userId = userId then (.err 403 "Không có quyền thao tác", st)
    else
      let validRows := rows.filter (fun r => ¬ r.name = "" ∧ ¬ r.studentId = "")
      if validRows = [] then
        (.err 400 "Không tìm thấy dữ liệu hợp lệ trong file", st)
      else
        let (created, failed, st1) := bulkImportRows eventId rand nowMs now validRows 0 st
        (.ok (created, failed), st1)

/-- The `GET /api/attendees/:id/qr` handler: 404 for an unknown attendee; when
the stored code or image path is missing (falsy), generate a fresh unique code
and data URL and store them; when the stored path is already a `data:` URL,
serve it; otherwise regenerate the data URL from the stored code. A thrown
database error is caught as a 500. -/
def getAttendeeQrHandler (st : AppState) (id : Nat) (rand : Nat → Nat)
    (nowMs : Nat) : RouteResult String × AppState :=
  match getAttendeeById st id with
  | none => (.err 404 "Sinh viên không tồn tại", st)
  | some attendee =>
    if jsFalsy attendee.qrCode || jsFalsy attendee.qrPath then
      let qr := ensureUniqueQRCode st rand nowMs
      let dataUrl := qrToDataURL qr
      match updateAttendee st id { qrCode := some (some qr), qrPath := some (some dataUrl) } with
      | .error _ => (.err 500 "Lỗi khi lấy mã QR", st)
      | .ok (_, st1) => (.ok dataUrl, st1)
    else if (attendee.qrPath.getD "").startsWith "data:" then
      (.ok (attendee.qrPath.getD ""), st)
    else
      (.ok (qrToDataURL (attendee.qrCode.getD "")), st)

/-! ## Reachability: the operations that can change the server state -/

/-- One server operation: a step from a state to the state the operation
leaves behind. Read-only routes leave the state unchanged and are omitted;
`dashboardStatsRead` is included because it fills the cache. -/
inductive Step : AppState → AppState → Prop where
  | register (st : AppState) (userId : String) :
      Step st (upsertUser st userId)
  | eventCreate (st : AppState) (userId : String) (body : InsertEvent) (now : Nat) :
      Step st (createEventHandler st userId body now).2
  | eventUpdate (st : AppState) (id : Nat) (p : EventPatch) :
      Step st (updateEventHandler st id p).2
  | eventDelete (st : AppState) (id : Nat) (userId : String) :
      Step st (deleteEventHandler st id userId).2
  | attendeeCreate (st : AppState) (eventId : Nat) (body : AttendeeBody)
      (rand : Nat → Nat) (nowMs now : Nat) :
      Step st (createAttendeeHandler st eventId body rand nowMs now).2
  | attendeeUpdate (st : AppState) (id : Nat) (body : AttendeeBodyPatch) :
      Step st (updateAttendeeHandler st id body).2
  | attendeeDelete (st : AppState) (id : Nat) :
      Step st (deleteAttendeeHandler st id).2
  | attendeeBulkDelete (st : AppState) (userId : String) (ids : List Nat) :
      Step st (bulkDeleteHandler st userId ids).2
  | attendeeBulkImport (st : AppState) (userId : String) (eventId : Nat)
      (rows : List ImportRow) (rand : Nat → Nat → Nat) (nowMs : Nat → Nat) (now : Nat) :
      Step st (bulkImportHandler st userId eventId rows rand nowMs now).2
  | checkin (st : AppState) (userId qrCode : Option String) (now : Nat)
      (ip : Option String) (ua : String) :
      Step st (checkinHandler st userId qrCode now ip ua).2
  | qrRegen (st : AppState) (id : Nat) (rand : Nat → Nat) (nowMs : Nat) :
      Step st (getAttendeeQrHandler st id rand nowMs).2
  | dashboardStatsRead (st : AppState) (userId : String) (now : Nat) :
      Step st (dashboardStatsHandler st userId now).2
  | wsOpen (st : AppState) (clientId userId : String) :
      Step st (wsConnect st clientId userId)

/-- The states reachable from the empty database by server operations. -/
inductive Reachable : AppState → Prop where
  | init : Reachable initialState
  | step {st st1 : AppState} : Reachable st → Step st st1 → Reachable st1

/-! ## The attendee-table invariant and its preservation -/

/-- The three legal values of the `status` column. -/
def StatusOK (s : String) : Prop :=
  s = "pending" ∨ s = "checked_in" ∨ s = "checked_out"

instance StatusOK.decide (s : String) : Decidable (StatusOK s) :=
  inferInstanceAs (Decidable (s = "pending" ∨ s = "checked_in" ∨ s = "checked_out"))

/-- Two attendee rows do not hold the same non-null QR code. -/
def QrOk (a b : Attendee) : Prop :=
  ∀ c, a.qrCode = some c → ¬ b.qrCode = some c

/-- The attendee-table invariant: distinct primary keys below the identity
counter, pairwise distinct non-null QR codes, and statuses among the three
legal values. -/
structure WF (st : AppState) : Prop where
  nodupIds : (st.attendees.map (fun a => a.id)).Nodup
  idsBound : ∀ a ∈ st.attendees, a.id < st.nextAttendeeId
  qrUnique : st.attendees.Pairwise QrOk
  statusWF : ∀ a ∈ st.attendees, StatusOK a.status

theorem QrOk.symm {a b : Attendee} (h : QrOk a b) : QrOk b a := by
  intro c hb ha
  exact h c ha hb

theorem wf_congr {st st1 : AppState} (h : WF st)
    (ha : st1.attendees = st.attendees)
    (hn : st1.nextAttendeeId = st.nextAttendeeId) : WF st1 := by
  refine ⟨?_, ?_, ?_, ?_⟩
  · rw [ha]; exact h.nodupIds
  · rw [ha, hn]; exact h.idsBound
  · rw [ha]; exact h.qrUnique
  · rw [ha]; exact h.statusWF

theorem wf_of_filter {st st1 : AppState} (h : WF st) (p : Attendee → Bool)
    (ha : st1.attendees = st.attendees.filter p)
    (hn : st1.nextAttendeeId = st.nextAttendeeId) : WF st1 := by
  refine ⟨?_, ?_, ?_, ?_⟩
  · rw [ha]
    exact List.Nodup.sublist (List.Sublist.map _ (List.filter_sublist _)) h.nodupIds
  · intro a hmem
    rw [ha] at hmem
    rw [hn]
    exact h.idsBound a (List.mem_of_mem_filter hmem)
  · rw [ha]
    exact List.Pairwise.sublist (List.filter_sublist _) h.qrUnique
  · intro a hmem
    rw [ha] at hmem
    exact h.statusWF a (List.mem_of_mem_filter hmem)

theorem applyPatch_id (a : Attendee) (p : AttendeePatch) :
    (applyPatch a p).id = a.id := rfl

theorem applyPatch_status (a : Attendee) (p : AttendeePatch) :
    (applyPatch a p).status = p.status.getD a.status := rfl

theorem applyPatch_qrCode (a : Attendee) (p : AttendeePatch) :
    (applyPatch a p).qrCode = p.qrCode.getD a.qrCode := rfl

theorem createAttendee_wf {st st1 : AppState} {ins : InsertAttendee}
    {now : Nat} {a : Attendee} (h : WF st) (hstatus : StatusOK (ins.status.getD "pending"))
    (hok : createAttendee st ins now = .ok (a, st1)) : WF st1 := by
  unfold createAttendee at hok
  by_cases hconf : qrInsertConflict st ins = true
  · rw [if_pos hconf] at hok
    exact absurd hok (by simp)
  · rw [if_neg hconf] at hok
    injection hok with hok
    injection hok with ha hst
    subst hst
    refine ⟨?_, ?_, ?_, ?_⟩
    · show ((st.attendees ++ [insertedAttendee st ins now]).map (fun a => a.id)).Nodup
      simp only [List.map_append, List.map_cons, List.map_nil]
      refine List.Nodup.append h.nodupIds (by simp) ?_
      intro x hx hx1
      simp only [List.mem_map] at hx
      obtain ⟨b, hb, hbid⟩ := hx
      simp only [List.mem_singleton] at hx1
      have := h.idsBound b hb
      have hxnew : x = (insertedAttendee st ins now).id := hx1
      rw [hxnew] at hbid
      simp only [insertedAttendee] at hbid
      omega
    · intro b hb
      rcases List.mem_append.mp hb with hb | hb
      · have := h.idsBound b hb
        simp only
        omega
      · simp only [List.mem_singleton] at hb
        subst hb
        simp only [insertedAttendee]
        omega
    · show (st.attendees ++ [insertedAttendee st ins now]).Pairwise QrOk
      rw [List.pairwise_append]
      refine ⟨h.qrUnique, by simp, ?_⟩
      intro b hb x hx
      simp only [List.mem_singleton] at hx
      subst hx
      intro c hbc hxc
      simp only [insertedAttendee] at hxc
      have : qrInsertConflict st ins = true := by
        unfold qrInsertConflict
        rw [hxc]
        simp only [List.any_eq_true]
        exact ⟨b, hb, by simpa using hbc⟩
      exact hconf this
    · intro b hb
      rcases List.mem_append.mp hb with hb | hb
      · exact h.statusWF b hb
      · simp only [List.mem_singleton] at hb
        subst hb
        exact hstatus

theorem updateAttendee_wf {st st1 : AppState} {id : Nat} {p : AttendeePatch}
    {r : Option Attendee} (h : WF st)
    (hstatus : ∀ s, p.status = some s → StatusOK s)
    (hok : updateAttendee st id p = .ok (r, st1)) : WF st1 := by
  unfold updateAttendee at hok
  split at hok
  · injection hok with hok
    injection hok with hr hst
    subst hst
    exact h
  case h_2 a hfind =>
    by_cases hconf : qrUpdateConflict st id p = true
    · rw [if_pos hconf] at hok
      exact absurd hok (by simp)
    · rw [if_neg hconf] at hok
      injection hok with hok
      injection hok with hr hst
      subst hst
      have hidmap : ((st.attendees.map
          (fun b => if b.id = id then applyPatch b p else b)).map (fun a => a.id)) =
          st.attendees.map (fun a => a.id) := by
        rw [List.map_map]
        refine List.map_congr_left ?_
        intro b _
        show (if b.id = id then applyPatch b p else b).id = b.id
        split
        · exact applyPatch_id b p
        · rfl
      have hpairNe : st.attendees.Pairwise (fun a b => ¬ a.id = b.id) :=
        List.pairwise_map.mp h.nodupIds
      refine ⟨?_, ?_, ?_, ?_⟩
      · show ((st.attendees.map
            (fun b => if b.id = id then applyPatch b p else b)).map (fun a => a.id)).Nodup
        rw [hidmap]
        exact h.nodupIds
      · intro b hb
        simp only [List.mem_map] at hb
        obtain ⟨x, hx, hxb⟩ := hb
        subst hxb
        have hlt := h.idsBound x hx
        show (if x.id = id then applyPatch x p else x).id < st.nextAttendeeId
        split
        · rw [applyPatch_id]; exact hlt
        · exact hlt
      · rw [List.pairwise_map]
        refine List.Pairwise.imp_of_mem ?_ (hpairNe.and h.qrUnique)
        intro x y hx hy hxy
        obtain ⟨hne, hq⟩ := hxy
        intro c hc hyc
        by_cases hxid : x.id = id <;> by_cases hyid : y.id = id
        · exact hne (hxid.trans hyid.symm)
        · rw [if_pos hxid] at hc
          rw [if_neg hyid] at hyc
          rw [applyPatch_qrCode] at hc
          rcases hpq : p.qrCode with _ | oc
          · rw [hpq] at hc
            simp only [Option.getD_none] at hc
            exact hq c hc hyc
          · rw [hpq] at hc
            simp only [Option.getD_some] at hc
            rcases oc with _ | c0
            · exact absurd hc (by simp)
            · injection hc with hcc
              apply hconf
              unfold qrUpdateConflict
              rw [hpq]
              simp only [List.any_eq_true]
              refine ⟨y, hy, ?_⟩
              rw [← hcc] at hyc
              simp [hyid, hyc]
        · rw [if_neg hxid] at hc
          rw [if_pos hyid] at hyc
          rw [applyPatch_qrCode] at hyc
          rcases hpq : p.qrCode with _ | oc
          · rw [hpq] at hyc
            simp only [Option.getD_none] at hyc
            exact hq c hc hyc
          · rw [hpq] at hyc
            simp only [Option.getD_some] at hyc
            rcases oc with _ | c0
            · exact absurd hyc (by simp)
            · injection hyc with hcc
              apply hconf
              unfold qrUpdateConflict
              rw [hpq]
              simp only [List.any_eq_true]
              refine ⟨x, hx, ?_⟩
              rw [← hcc] at hc
              simp [hxid, hc]
        · rw [if_neg hxid] at hc
          rw [if_neg hyid] at hyc
          exact hq c hc hyc
      · intro b hb
        simp only [List.mem_map] at hb
        obtain ⟨x, hx, hxb⟩ := hb
        subst hxb
        show StatusOK (if x.id = id then applyPatch x p else x).status
        split
        · rw [applyPatch_status]
          rcases hps : p.status with _ | s
          · simpa using h.statusWF x hx
          · simpa using hstatus s hps
        · exact h.statusWF x hx

theorem checkinFinish_attendees (st1 : AppState) (uid : String) (a : Attendee)
    (e : Event) (act ns msg : String) (now : Nat) (ip : Option String) (ua : String) :
    (checkinFinish st1 uid a e act ns msg now ip ua).2.attendees = st1.attendees := rfl

theorem checkinFinish_nextAttendeeId (st1 : AppState) (uid : String) (a : Attendee)
    (e : Event) (act ns msg : String) (now : Nat) (ip : Option String) (ua : String) :
    (checkinFinish st1 uid a e act ns msg now ip ua).2.nextAttendeeId =
      st1.nextAttendeeId := rfl

theorem bulkImportRows_wf {eventId : Nat} {rand : Nat → Nat → Nat}
    {nowMs : Nat → Nat} {now : Nat} :
    ∀ (rows : List ImportRow) (i : Nat) (st : AppState), WF st →
      WF (bulkImportRows eventId rand nowMs now rows i st).2.2 := by
  intro rows
  induction rows with
  | nil => intro i st h; exact h
  | cons row rest ih =>
    intro i st h
    unfold bulkImportRows
    dsimp only
    rcases hca : createAttendee st
        { eventId := eventId, name := row.name, studentId := row.studentId
          email := some row.email, faculty := some row.faculty
          major := some row.major
          qrCode := some (ensureUniqueQRCode st (rand i) (nowMs i))
          qrPath := some (qrToDataURL (ensureUniqueQRCode st (rand i) (nowMs i)))
          status := none } now with msg | pair
    · dsimp only
      exact ih (i + 1) st h
    · rcases pair with ⟨a, st1⟩
      dsimp only
      refine ih (i + 1) st1 (createAttendee_wf h ?_ hca)
      exact Or.inl rfl

theorem wf_step {st st1 : AppState} (h : WF st) (s : Step st st1) : WF st1 := by
  cases s with
  | register userId =>
    refine wf_congr h ?_ ?_ <;> (unfold upsertUser; split <;> rfl)
  | eventCreate userId body now =>
    exact wf_congr h rfl rfl
  | eventUpdate id p =>
    unfold updateEventHandler
    split
    · exact wf_congr h rfl rfl
    · exact wf_congr h rfl rfl
  | eventDelete id userId =>
    unfold deleteEventHandler
    split
    · exact wf_of_filter h _ rfl rfl
    · exact wf_congr h rfl rfl
  | attendeeCreate eventId body rand nowMs now =>
    unfold createAttendeeHandler
    split
    · exact wf_congr h rfl rfl
    · dsimp only
      rcases hca : createAttendee st
          { eventId := eventId, name := body.name, studentId := body.studentId
            email := body.email, faculty := body.faculty, major := body.major
            qrCode := none, qrPath := none, status := none } now with msg | pair
      · exact wf_congr h rfl rfl
      · rcases pair with ⟨a, st2⟩
        refine createAttendee_wf h ?_ hca
        exact Or.inl rfl
  | attendeeUpdate id body =>
    unfold updateAttendeeHandler
    dsimp only
    rcases hu : updateAttendee st id
        { eventId := body.eventId, name := body.name, studentId := body.studentId
          email := body.email, faculty := body.faculty, major := body.major }
        with msg | pair
    · exact wf_congr h rfl rfl
    · rcases pair with ⟨r, st2⟩
      have hwf2 : WF st2 := updateAttendee_wf h (by intro s hs; simp at hs) hu
      rcases r with _ | a
      · exact hwf2
      · exact hwf2
  | attendeeDelete id =>
    unfold deleteAttendeeHandler deleteAttendee
    by_cases hany : st.attendees.any (fun a => a.id = id) = true
    · rw [if_pos hany]
      exact wf_of_filter h _ rfl rfl
    · rw [if_neg hany]
      exact wf_congr h rfl rfl
  | attendeeBulkDelete userId ids =>
    unfold bulkDeleteHandler
    split
    · exact wf_congr h rfl rfl
    · dsimp only
      split
      · exact wf_congr h rfl rfl
      · exact wf_of_filter h _ rfl rfl
  | attendeeBulkImport userId eventId rows rand nowMs now =>
    unfold bulkImportHandler
    rcases hev : getEventById st eventId with _ | event
    · exact wf_congr h rfl rfl
    · dsimp only
      split
      · exact wf_congr h rfl rfl
      · split
        · exact wf_congr h rfl rfl
        · rcases hrec : bulkImportRows eventId rand nowMs now
              (rows.filter (fun r => ¬ r.name = "" ∧ ¬ r.studentId = "")) 0 st
              with ⟨c, f, st2⟩
          have := @bulkImportRows_wf eventId rand nowMs now
            (rows.filter (fun r => ¬ r.name = "" ∧ ¬ r.studentId = "")) 0 st h
          rw [hrec] at this
          exact this
  | checkin userId qrCode now ip ua =>
    unfold checkinHandler
    rcases userId with _ | uid
    · exact wf_congr h rfl rfl
    · dsimp only
      split
      · exact wf_congr h rfl rfl
      · rcases hae : getAttendeeWithEvent st (qrCode.getD "") with _ | ae
        · exact wf_congr h rfl rfl
        · rcases ae with ⟨attendee, event⟩
          dsimp only
          split
          · exact wf_congr h rfl rfl
          · split
            · rcases hu : updateAttendee st attendee.id
                  { status := some "checked_in", checkinTime := some (some now) }
                  with msg | pair
              · exact wf_congr h rfl rfl
              · rcases pair with ⟨r, stU⟩
                have hst : ∀ s, (some "checked_in" : Option String) = some s → StatusOK s := by
                  intro s hs
                  injection hs with hs
                  rw [← hs]
                  exact Or.inr (Or.inl rfl)
                exact wf_congr (updateAttendee_wf h hst hu)
                  (checkinFinish_attendees ..) (checkinFinish_nextAttendeeId ..)
            · split
              · rcases hu : updateAttendee st attendee.id
                    { status := some "checked_out", checkoutTime := some (some now) }
                    with msg | pair
                · exact wf_congr h rfl rfl
                · rcases pair with ⟨r, stU⟩
                  have hst : ∀ s, (some "checked_out" : Option String) = some s → StatusOK s := by
                    intro s hs
                    injection hs with hs
                    rw [← hs]
                    exact Or.inr (Or.inr rfl)
                  exact wf_congr (updateAttendee_wf h hst hu)
                    (checkinFinish_attendees ..) (checkinFinish_nextAttendeeId ..)
              · exact wf_congr h rfl rfl
  | qrRegen id rand nowMs =>
    unfold getAttendeeQrHandler
    rcases ha : getAttendeeById st id with _ | attendee
    · exact wf_congr h rfl rfl
    · dsimp only
      split
      · rcases hu : updateAttendee st id
            { qrCode := some (some (ensureUniqueQRCode st rand nowMs))
              qrPath := some (some (qrToDataURL (ensureUniqueQRCode st rand nowMs))) }
            with msg | pair
        · exact wf_congr h rfl rfl
        · rcases pair with ⟨r, st2⟩
          exact updateAttendee_wf h (by intro s hs; simp at hs) hu
      · split
        · exact wf_congr h rfl rfl
        · exact wf_congr h rfl rfl
  | dashboardStatsRead userId now =>
    unfold dashboardStatsHandler
    dsimp only
    rcases hc : cacheGet st.cache ("stats:" ++ userId) now with _ | v
    · exact wf_congr h rfl rfl
    · exact wf_congr h rfl rfl
  | wsOpen clientId userId =>
    unfold wsConnect
    split
    · exact wf_congr h rfl rfl
    · split
      · exact wf_congr h rfl rfl
      · exact wf_congr h rfl rfl

theorem wf_initialState : WF initialState := by
  refine ⟨?_, ?_, ?_, ?_⟩ <;> simp [initialState]

/-- Every reachable state satisfies the attendee-table invariant. -/
theorem wf_reachable {st : AppState} (h : Reachable st) : WF st := by
  induction h with
  | init => exact wf_initialState
  | step _ s ih => exact wf_step ih s

/-! ## Facts about the check-in handler -/

theorem getAttendeeWithEvent_some {st : AppState} {qr : String} {a : Attendee}
    {e : Event} (h : getAttendeeWithEvent st qr = some (a, e)) :
    a ∈ st.attendees ∧ a.qrCode = some qr ∧ e ∈ st.events ∧ e.id = a.eventId := by
  unfold getAttendeeWithEvent getAttendeeByQrCode getEventById at h
  rcases hf : st.attendees.find? (fun x => x.qrCode = some qr) with _ | a0
  · rw [hf] at h
    exact absurd h (by simp)
  · rw [hf] at h
    dsimp only at h
    rcases he : st.events.find? (fun x => x.id = a0.eventId) with _ | e0
    · rw [he] at h
      exact absurd h (by simp)
    · rw [he] at h
      injection h with h
      injection h with h1 h2
      subst h1
      subst h2
      refine ⟨List.mem_of_find?_eq_some hf, ?_, List.mem_of_find?_eq_some he, ?_⟩
      · simpa using List.find?_some hf
      · simpa using List.find?_some he

theorem updateAttendee_ok_frame {st st1 : AppState} {id : Nat} {p : AttendeePatch}
    {r : Option Attendee} (hok : updateAttendee st id p = .ok (r, st1)) :
    st1.users = st.users ∧ st1.events = st.events ∧
    st1.checkinLogs = st.checkinLogs ∧ st1.collaborators = st.collaborators ∧
    st1.cache = st.cache ∧ st1.clients = st.clients ∧
    st1.nextEventId = st.nextEventId ∧ st1.nextAttendeeId = st.nextAttendeeId ∧
    st1.nextLogId = st.nextLogId := by
  unfold updateAttendee at hok
  split at hok
  · injection hok with hok
    injection hok with h1 h2
    subst h2
    exact ⟨rfl, rfl, rfl, rfl, rfl, rfl, rfl, rfl, rfl⟩
  · split at hok
    · exact absurd hok (by simp)
    · injection hok with hok
      injection hok with h1 h2
      subst h2
      exact ⟨rfl, rfl, rfl, rfl, rfl, rfl, rfl, rfl, rfl⟩

theorem updateAttendee_ok_attendees {st st1 : AppState} {id : Nat}
    {p : AttendeePatch} {r : Option Attendee}
    (hmem : ∃ b ∈ st.attendees, b.id = id)
    (hok : updateAttendee st id p = .ok (r, st1)) :
    st1.attendees = st.attendees.map
      (fun b => if b.id = id then applyPatch b p else b) := by
  unfold updateAttendee at hok
  rcases hf : st.attendees.find? (fun a => a.id = id) with _ | a0
  · obtain ⟨b, hb, hbid⟩ := hmem
    rw [List.find?_eq_none] at hf
    exact absurd (by simpa using hbid) (by simpa using hf b hb)
  · rw [hf] at hok
    dsimp only at hok
    split at hok
    · exact absurd hok (by simp)
    · injection hok with hok
      injection hok with h1 h2
      rw [← h2]

/-- The attendee-row update performed by the check-in transition: the new
status together with `checkinTime` for a check-in, `checkoutTime` for a
check-out. -/
def checkinPatch (status : String) (now : Nat) : AttendeePatch :=
  if status = "pending" then
    { status := some "checked_in", checkinTime := some (some now) }
  else
    { status := some "checked_out", checkoutTime := some (some now) }

theorem checkinFinish_fst (st1 : AppState) (uid : String) (a : Attendee)
    (e : Event) (act ns msg : String) (now : Nat) (ip : Option String) (ua : String) :
    (checkinFinish st1 uid a e act ns msg now ip ua).1 =
      .ok act msg { a with status := ns } e := rfl

theorem checkinFinish_checkinLogs (st1 : AppState) (uid : String) (a : Attendee)
    (e : Event) (act ns msg : String) (now : Nat) (ip : Option String) (ua : String) :
    (checkinFinish st1 uid a e act ns msg now ip ua).2.checkinLogs =
      st1.checkinLogs ++
        [{ id := st1.nextLogId, attendeeId := a.id, action := act
           timestamp := now, ipAddress := ip, userAgent := ua }] := rfl

theorem checkinFinish_cache (st1 : AppState) (uid : String) (a : Attendee)
    (e : Event) (act ns msg : String) (now : Nat) (ip : Option String) (ua : String) :
    (checkinFinish st1 uid a e act ns msg now ip ua).2.cache =
      cacheInvalidate st1.cache ("stats:" ++ uid) := rfl

theorem checkinFinish_events (st1 : AppState) (uid : String) (a : Attendee)
    (e : Event) (act ns msg : String) (now : Nat) (ip : Option String) (ua : String) :
    (checkinFinish st1 uid a e act ns msg now ip ua).2.events = st1.events := rfl

/-- Full characterization of a successful `POST /api/checkin` call: the QR
code was supplied and matched an attendee of an event owned by the caller,
the attendee was pending or checked in, the response reflects the advanced
status, the attendee table is updated through the corresponding patch, one
log row is appended, and the caller's stats cache entry is invalidated. -/
theorem checkin_ok_spec {st st1 : AppState} {uid : String} {qr : Option String}
    {now : Nat} {ip : Option String} {ua : String} {action msg : String}
    {att : Attendee} {ev : Event}
    (heq : checkinHandler st (some uid) qr now ip ua = (.ok action msg att ev, st1)) :
    ∃ a e, getAttendeeWithEvent st (qr.getD "") = some (a, e) ∧
      jsFalsy qr = false ∧ e.userId = uid ∧ ev = e ∧
      ((a.status = "pending" ∧ action = "check_in") ∨
        (a.status = "checked_in" ∧ action = "check_out")) ∧
      att = { a with status := if a.status = "pending" then "checked_in" else "checked_out" } ∧
      st1.attendees = st.attendees.map
        (fun b => if b.id = a.id then applyPatch b (checkinPatch a.status now) else b) ∧
      st1.checkinLogs = st.checkinLogs ++
        [{ id := st.nextLogId, attendeeId := a.id, action := action
           timestamp := now, ipAddress := ip, userAgent := ua }] ∧
      st1.cache = cacheInvalidate st.cache ("stats:" ++ uid) ∧
      st1.events = st.events := by
  unfold checkinHandler at heq
  dsimp only at heq
  split at heq
  · exact absurd heq (by simp)
  case isFalse hfal =>
    rcases hae : getAttendeeWithEvent st (qr.getD "") with _ | ae
    · rw [hae] at heq
      exact absurd heq (by simp)
    · rw [hae] at heq
      rcases ae with ⟨a, e⟩
      dsimp only at heq
      split at heq
      · exact absurd heq (by simp)
      case isFalse hown =>
        rw [not_not] at hown
        split at heq
        case isTrue hpend =>
          rcases hu : updateAttendee st a.id
              { status := some "checked_in", checkinTime := some (some now) }
              with msg0 | pair
          · rw [hu] at heq
            exact absurd heq (by simp)
          · rw [hu] at heq
            rcases pair with ⟨r, stU⟩
            dsimp only at heq
            have hfst := congrArg Prod.fst heq
            have hsnd := congrArg Prod.snd heq
            dsimp only at hfst hsnd
            rw [checkinFinish_fst] at hfst
            injection hfst with e1 e2 e3 e4
            obtain ⟨hm, hmm⟩ := getAttendeeWithEvent_some hae
            have hatt := updateAttendee_ok_attendees ⟨a, hm, rfl⟩ hu
            obtain ⟨_, hev, hlog, _, hcache, _, _, _, hnlog⟩ := updateAttendee_ok_frame hu
            refine ⟨a, e, rfl, by simpa using hfal, hown, e4.symm,
              Or.inl ⟨hpend, e1.symm⟩, ?_, ?_, ?_, ?_, ?_⟩
            · rw [← e3, if_pos hpend]
            · rw [← hsnd, checkinFinish_attendees, hatt]
              unfold checkinPatch
              rw [if_pos hpend]
            · rw [← hsnd, checkinFinish_checkinLogs, hlog, hnlog, ← e1]
            · rw [← hsnd, checkinFinish_cache, hcache]
            · rw [← hsnd, checkinFinish_events, hev]
        case isFalse hpend =>
          split at heq
          case isTrue hcin =>
            rcases hu : updateAttendee st a.id
                { status := some "checked_out", checkoutTime := some (some now) }
                with msg0 | pair
            · rw [hu] at heq
              exact absurd heq (by simp)
            · rw [hu] at heq
              rcases pair with ⟨r, stU⟩
              dsimp only at heq
              have hfst := congrArg Prod.fst heq
              have hsnd := congrArg Prod.snd heq
              dsimp only at hfst hsnd
              rw [checkinFinish_fst] at hfst
              injection hfst with e1 e2 e3 e4
              obtain ⟨hm, hmm⟩ := getAttendeeWithEvent_some hae
              have hatt := updateAttendee_ok_attendees ⟨a, hm, rfl⟩ hu
              obtain ⟨_, hev, hlog, _, hcache, _, _, _, hnlog⟩ := updateAttendee_ok_frame hu
              refine ⟨a, e, rfl, by simpa using hfal, hown, e4.symm,
                Or.inr ⟨hcin, e1.symm⟩, ?_, ?_, ?_, ?_, ?_⟩
              · rw [← e3, if_neg hpend]
              · rw [← hsnd, checkinFinish_attendees, hatt]
                unfold checkinPatch
                rw [if_neg hpend]
              · rw [← hsnd, checkinFinish_checkinLogs, hlog, hnlog, ← e1]
              · rw [← hsnd, checkinFinish_cache, hcache]
              · rw [← hsnd, checkinFinish_events, hev]
          case isFalse hcin =>
            exact absurd heq (by simp)

/-- A failed `POST /api/checkin` call leaves the state untouched. -/
theorem checkin_err_state {st st1 : AppState} {uid qr : Option String}
    {now : Nat} {ip : Option String} {ua : String} {s : Nat} {m : String}
    (heq : checkinHandler st uid qr now ip ua = (.err s m, st1)) : st1 = st := by
  unfold checkinHandler at heq
  rcases uid with _ | u
  · injection heq with h1 h2
    exact h2.symm
  · dsimp only at heq
    split at heq
    · injection heq with h1 h2
      exact h2.symm
    · rcases hae : getAttendeeWithEvent st (qr.getD "") with _ | ae
      · rw [hae] at heq
        injection heq with h1 h2
        exact h2.symm
      · rw [hae] at heq
        rcases ae with ⟨a, e⟩
        dsimp only at heq
        split at heq
        · injection heq with h1 h2
          exact h2.symm
        · split at heq
          · rcases hu : updateAttendee st a.id
                { status := some "checked_in", checkinTime := some (some now) }
                with msg0 | pair
            · rw [hu] at heq
              injection heq with h1 h2
              exact h2.symm
            · rw [hu] at heq
              rcases pair with ⟨r, stU⟩
              dsimp only at heq
              have hfst := congrArg Prod.fst heq
              dsimp only at hfst
              rw [checkinFinish_fst] at hfst
              exact absurd hfst (by simp)
          · split at heq
            · rcases hu : updateAttendee st a.id
                  { status := some "checked_out", checkoutTime := some (some now) }
                  with msg0 | pair
              · rw [hu] at heq
                injection heq with h1 h2
                exact h2.symm
              · rw [hu] at heq
                rcases pair with ⟨r, stU⟩
                dsimp only at heq
                have hfst := congrArg Prod.fst heq
                dsimp only at hfst
                rw [checkinFinish_fst] at hfst
                exact absurd hfst (by simp)
            · injection heq with h1 h2
              exact h2.symm

/-! ## Concrete demonstration states -/

/-- The event body of the demonstration run. -/
def demoEventBody : InsertEvent :=
  { userId := "", name := "Hackathon", eventDate := 20000 }

/-- The spreadsheet row of the demonstration bulk import. -/
def demoRow : ImportRow := { name := "Nguyen Van A", studentId := "SV001" }

/-- A fixed random stream for the demonstration run: every draw is 1. -/
def demoRand : Nat → Nat → Nat := fun _ _ => 1

/-- A fixed clock for the demonstration run. -/
def demoNowMs : Nat → Nat := fun _ => 42

/-- The state after registering the user "alice". -/
def demoUsers : AppState := upsertUser initialState "alice"

/-- The state after "alice" creates an event. -/
def demoEvents : AppState := (createEventHandler demoUsers "alice" demoEventBody 0).2

/-- The state after "alice" bulk-imports one attendee, who receives the QR
code CK_0000000001. -/
def demoFull : AppState :=
  (bulkImportHandler demoEvents "alice" 1 [demoRow] demoRand demoNowMs 0).2

theorem demoFull_reachable : Reachable demoFull :=
  .step (.step (.step .init (.register initialState "alice"))
      (.eventCreate demoUsers "alice" demoEventBody 0))
    (.attendeeBulkImport demoEvents "alice" 1 [demoRow] demoRand demoNowMs 0)

/-- The state after scanning the demonstration attendee's QR code once. -/
def demoCheckedIn : AppState :=
  (checkinHandler demoFull (some "alice") (some "CK_0000000001") 1000 none "ua").2

theorem demoCheckedIn_reachable : Reachable demoCheckedIn :=
  .step demoFull_reachable
    (.checkin demoFull (some "alice") (some "CK_0000000001") 1000 none "ua")

/-! ## The claims -/

/-- A single attendee row either keeps its status or advances it one step
along pending → checked_in → checked_out. -/
def LinearAdvance (a b : Attendee) : Prop :=
  b.status = a.status ∨
    (a.status = "pending" ∧ b.status = "checked_in") ∨
    (a.status = "checked_in" ∧ b.status = "checked_out")

/-- C1: in every reachable state each attendee's status is one of "pending",
"checked_in", "checked_out", and the `POST /api/checkin` handler only moves a
row's status linearly — it leaves it alone, advances "pending" to
"checked_in", or advances "checked_in" to "checked_out"; no other change ever
occurs. -/
theorem c1_status_invariant_and_linear :
    (∀ st, Reachable st → ∀ a ∈ st.attendees, StatusOK a.status) ∧
    (∀ st, Reachable st →
      ∀ (uid qr : Option String) (now : Nat) (ip : Option String) (ua : String),
        List.Forall₂ LinearAdvance st.attendees
          (checkinHandler st uid qr now ip ua).2.attendees) := by
  constructor
  · intro st hreach
    exact (wf_reachable hreach).statusWF
  · intro st hreach uid qr now ip ua
    rcases hres : checkinHandler st uid qr now ip ua with ⟨resp, st2⟩
    dsimp only
    rcases resp with ⟨action, msg, att, ev⟩ | ⟨s, m⟩
    · rcases uid with _ | u
      · rw [show checkinHandler st none qr now ip ua =
            (.err 401 "User ID not found", st) from rfl] at hres
        exact absurd (congrArg Prod.fst hres) (by simp)
      · obtain ⟨a, e, hae, hfal, hown, hev, hdisj, hattEq, hattList, hlog, hcache, hevs⟩ :=
          checkin_ok_spec hres
        rw [hattList, List.forall₂_map_right_iff, List.forall₂_same]
        intro b hb
        by_cases hbid : b.id = a.id
        · have hwf := wf_reachable hreach
          have hmem_a : a ∈ st.attendees := (getAttendeeWithEvent_some hae).1
          have hba : b = a := List.inj_on_of_nodup_map hwf.nodupIds hb hmem_a hbid
          rw [if_pos hbid]
          rcases hdisj with ⟨hp, hact⟩ | ⟨hp, hact⟩
          · right; left
            refine ⟨by rw [hba, hp], ?_⟩
            rw [applyPatch_status]
            unfold checkinPatch
            rw [if_pos hp]
            rfl
          · right; right
            refine ⟨by rw [hba, hp], ?_⟩
            rw [applyPatch_status]
            unfold checkinPatch
            rw [if_neg (by rw [hp]; simp)]
            rfl
        · rw [if_neg hbid]
          left
          rfl
    · rw [checkin_err_state hres, List.forall₂_same]
      intro b hb
      left
      rfl

/-- C1 witness: the demonstration state is reachable, its attendee holds a
legal status, and scanning its QR code advances statuses only linearly. -/
theorem c1_witness :
    (∀ a ∈ demoFull.attendees, StatusOK a.status) ∧
    List.Forall₂ LinearAdvance demoFull.attendees
      (checkinHandler demoFull (some "alice") (some "CK_0000000001") 1000 none "ua").2.attendees :=
  ⟨c1_status_invariant_and_linear.1 demoFull demoFull_reachable,
   c1_status_invariant_and_linear.2 demoFull demoFull_reachable
     (some "alice") (some "CK_0000000001") 1000 none "ua"⟩

/-- The attendee row of the demonstration state, written out. -/
def demoAttendeeRow : Attendee :=
  { id := 1, eventId := 1, name := "Nguyen Van A", studentId := "SV001"
    email := some "", faculty := some "", major := some ""
    qrCode := some "CK_0000000001"
    qrPath := some "data:image/png;base64,CK_0000000001"
    status := "pending", checkinTime := none, checkoutTime := none, createdAt := 0 }

/-- The event row of the demonstration state, written out. -/
def demoEventRow : Event :=
  { id := 1, userId := "alice", name := "Hackathon", description := none
    eventDate := 20000, startTime := none, endTime := none, location := none
    isActive := true, createdAt := 0 }

/-- C10: a successful check-in transition rewrites only the `status` and
`checkinTime` columns of the scanned attendee's row, a successful check-out
only `status` and `checkoutTime`; every other column of that row and every
other attendee row is unchanged. -/
theorem c10_checkin_frame :
    ∀ (st st2 : AppState), Reachable st →
      ∀ (uid : String) (qr : Option String) (now : Nat) (ip : Option String)
        (ua action msg : String) (att : Attendee) (ev : Event),
      checkinHandler st (some uid) qr now ip ua = (.ok action msg att ev, st2) →
      (action = "check_in" ∨ action = "check_out") ∧
      List.Forall₂ (fun a b =>
          (¬ a.id = att.id → b = a) ∧
          (a.id = att.id → action = "check_in" →
            b = { a with status := "checked_in", checkinTime := some now }) ∧
          (a.id = att.id → action = "check_out" →
            b = { a with status := "checked_out", checkoutTime := some now }))
        st.attendees st2.attendees := by
  intro st st2 hreach uid qr now ip ua action msg att ev heq
  obtain ⟨a, e, hae, hfal, hown, hev, hdisj, hattEq, hattList, hlog, hcache, hevs⟩ :=
    checkin_ok_spec heq
  have hattId : att.id = a.id := by rw [hattEq]
  constructor
  · rcases hdisj with ⟨_, hact⟩ | ⟨_, hact⟩
    · exact Or.inl hact
    · exact Or.inr hact
  · rw [hattList, List.forall₂_map_right_iff, List.forall₂_same]
    intro x hx
    refine ⟨?_, ?_, ?_⟩
    · intro hne
      rw [if_neg (by rw [hattId] at hne; exact hne)]
    · intro hid hact
      rw [hattId] at hid
      rw [if_pos hid]
      have hwf := wf_reachable hreach
      have hmem_a : a ∈ st.attendees := (getAttendeeWithEvent_some hae).1
      have hxa : x = a := List.inj_on_of_nodup_map hwf.nodupIds hx hmem_a hid
      rcases hdisj with ⟨hp, _⟩ | ⟨hp, hact2⟩
      · unfold checkinPatch
        rw [hxa, if_pos hp]
        rfl
      · rw [hact] at hact2
        exact absurd hact2 (by decide)
    · intro hid hact
      rw [hattId] at hid
      rw [if_pos hid]
      have hwf := wf_reachable hreach
      have hmem_a : a ∈ st.attendees := (getAttendeeWithEvent_some hae).1
      have hxa : x = a := List.inj_on_of_nodup_map hwf.nodupIds hx hmem_a hid
      rcases hdisj with ⟨hp, hact2⟩ | ⟨hp, _⟩
      · rw [hact] at hact2
        exact absurd hact2 (by decide)
      · unfold checkinPatch
        rw [hxa, if_neg (by rw [hp]; simp)]
        rfl

/-- C10 witness: the demonstration check-in transition satisfies the frame
property at its concrete state. -/
theorem c10_witness :
    (("check_in" : String) = "check_in" ∨ ("check_in" : String) = "check_out") ∧
    List.Forall₂ (fun a b =>
        (¬ a.id = ({ demoAttendeeRow with status := "checked_in" } : Attendee).id → b = a) ∧
        (a.id = ({ demoAttendeeRow with status := "checked_in" } : Attendee).id →
          ("check_in" : String) = "check_in" →
          b = { a with status := "checked_in", checkinTime := some 1000 }) ∧
        (a.id = ({ demoAttendeeRow with status := "checked_in" } : Attendee).id →
          ("check_in" : String) = "check_out" →
          b = { a with status := "checked_out", checkoutTime := some 1000 }))
      demoFull.attendees demoCheckedIn.attendees :=
  c10_checkin_frame demoFull demoCheckedIn demoFull_reachable "alice"
    (some "CK_0000000001") 1000 none "ua" "check_in" "Check-in successful!"
    { demoAttendeeRow with status := "checked_in" } demoEventRow (by decide)

/-! ## Computation rules for the check-in handler -/

theorem checkinHandler_noqr {st : AppState} {uid : String} {qr : Option String}
    {now : Nat} {ip : Option String} {ua : String} (hfal : jsFalsy qr = true) :
    checkinHandler st (some uid) qr now ip ua = (.err 400 "QR code is required", st) := by
  unfold checkinHandler
  dsimp only
  rw [if_pos hfal]

theorem checkinHandler_notfound {st : AppState} {uid : String} {qr : Option String}
    {now : Nat} {ip : Option String} {ua : String} (hfal : jsFalsy qr = false)
    (hae : getAttendeeWithEvent st (qr.getD "") = none) :
    checkinHandler st (some uid) qr now ip ua =
      (.err 404 "Invalid QR code or attendee not found", st) := by
  unfold checkinHandler
  dsimp only
  rw [if_neg (by simp [hfal]), hae]

theorem checkinHandler_forbidden {st : AppState} {uid : String} {qr : Option String}
    {now : Nat} {ip : Option String} {ua : String} {a : Attendee} {e : Event}
    (hfal : jsFalsy qr = false)
    (hae : getAttendeeWithEvent st (qr.getD "") = some (a, e))
    (hown : ¬ e.userId = uid) :
    checkinHandler st (some uid) qr now ip ua =
      (.err 403 "Bạn không có quyền check-in cho sự kiện này", st) := by
  unfold checkinHandler
  dsimp only
  rw [if_neg (by simp [hfal]), hae]
  dsimp only
  rw [if_pos hown]

theorem checkinHandler_alreadyOut {st : AppState} {uid : String} {qr : Option String}
    {now : Nat} {ip : Option String} {ua : String} {a : Attendee} {e : Event}
    (hfal : jsFalsy qr = false)
    (hae : getAttendeeWithEvent st (qr.getD "") = some (a, e))
    (hown : e.userId = uid) (h1 : ¬ a.status = "pending")
    (h2 : ¬ a.status = "checked_in") :
    checkinHandler st (some uid) qr now ip ua =
      (.err 400 "This attendee has already checked out", st) := by
  unfold checkinHandler
  dsimp only
  rw [if_neg (by simp [hfal]), hae]
  dsimp only
  rw [if_neg (by simp [hown]), if_neg h1, if_neg h2]

theorem qrUpdateConflict_of_qrCode_none {st : AppState} {id : Nat}
    {p : AttendeePatch} (hq : p.qrCode = none) :
    qrUpdateConflict st id p = false := by
  unfold qrUpdateConflict
  rw [hq]

theorem updateAttendee_ok_of_qrCode_none {st : AppState} {id : Nat}
    {p : AttendeePatch} (hq : p.qrCode = none) :
    ∃ r st1, updateAttendee st id p = .ok (r, st1) := by
  unfold updateAttendee
  rcases hf : st.attendees.find? (fun a => a.id = id) with _ | a0
  · rw [hf]
    exact ⟨none, st, rfl⟩
  · rw [hf]
    dsimp only
    rw [if_neg (by rw [qrUpdateConflict_of_qrCode_none hq]; simp)]
    exact ⟨_, _, rfl⟩

theorem checkinHandler_advance_isOk {st : AppState} {uid : String}
    {qr : Option String} {now : Nat} {ip : Option String} {ua : String}
    {a : Attendee} {e : Event} (hfal : jsFalsy qr = false)
    (hae : getAttendeeWithEvent st (qr.getD "") = some (a, e))
    (hown : e.userId = uid)
    (hst : a.status = "pending" ∨ a.status = "checked_in") :
    (checkinHandler st (some uid) qr now ip ua).1.isOk = true := by
  unfold checkinHandler
  dsimp only
  rw [if_neg (by simp [hfal]), hae]
  dsimp only
  rw [if_neg (by simp [hown])]
  rcases hst with hst | hst
  · rw [if_pos hst]
    obtain ⟨r, st1, hu⟩ := @updateAttendee_ok_of_qrCode_none st a.id
      { status := some "checked_in", checkinTime := some (some now) } rfl
    rw [hu]
    rfl
  · rw [if_neg (by rw [hst]; simp), if_pos hst]
    obtain ⟨r, st1, hu⟩ := @updateAttendee_ok_of_qrCode_none st a.id
      { status := some "checked_out", checkoutTime := some (some now) } rfl
    rw [hu]
    rfl

theorem CheckinResponse.ne_err_of_isOk {r : CheckinResponse} {s : Nat} {m : String}
    (h : r.isOk = true) : ¬ r = .err s m := by
  rcases r with _ | _
  · simp
  · simp [CheckinResponse.isOk] at h

/-- C3: an authenticated `POST /api/checkin` call fails, leaving the whole
state (in particular the attendee table and the check-in logs) untouched,
exactly in the four cases the claim lists — missing QR code (400), unknown QR
code (404), requester not the event owner (403), attendee already checked out
(400 with the corresponding message) — and succeeds otherwise. The hypothesis
that statuses are well-formed holds in every reachable state. -/
theorem c3_checkin_failure_cases :
    ∀ (st : AppState) (uid : String) (qr : Option String) (now : Nat)
      (ip : Option String) (ua : String),
      (∀ a ∈ st.attendees, StatusOK a.status) →
      ((checkinHandler st (some uid) qr now ip ua).1.isOk = false →
        (checkinHandler st (some uid) qr now ip ua).2 = st) ∧
      ((checkinHandler st (some uid) qr now ip ua).1 =
          .err 400 "QR code is required" ↔ jsFalsy qr = true) ∧
      ((checkinHandler st (some uid) qr now ip ua).1 =
          .err 404 "Invalid QR code or attendee not found" ↔
        jsFalsy qr = false ∧ getAttendeeWithEvent st (qr.getD "") = none) ∧
      ((checkinHandler st (some uid) qr now ip ua).1 =
          .err 403 "Bạn không có quyền check-in cho sự kiện này" ↔
        jsFalsy qr = false ∧ ∃ a e, getAttendeeWithEvent st (qr.getD "") = some (a, e) ∧
          ¬ e.userId = uid) ∧
      ((checkinHandler st (some uid) qr now ip ua).1 =
          .err 400 "This attendee has already checked out" ↔
        jsFalsy qr = false ∧ ∃ a e, getAttendeeWithEvent st (qr.getD "") = some (a, e) ∧
          e.userId = uid ∧ a.status = "checked_out") ∧
      ((checkinHandler st (some uid) qr now ip ua).1.isOk = false ↔
        (jsFalsy qr = true ∨ getAttendeeWithEvent st (qr.getD "") = none ∨
          (∃ a e, getAttendeeWithEvent st (qr.getD "") = some (a, e) ∧ ¬ e.userId = uid) ∨
          (∃ a e, getAttendeeWithEvent st (qr.getD "") = some (a, e) ∧ e.userId = uid ∧
            a.status = "checked_out"))) := by
  intro st uid qr now ip ua hstat
  by_cases hfal : jsFalsy qr = true
  · rw [checkinHandler_noqr hfal]
    refine ⟨fun _ => rfl, by simp [hfal], by simp [hfal], by simp [hfal], by simp [hfal], ?_⟩
    simp only [CheckinResponse.isOk]
    exact ⟨fun _ => Or.inl hfal, fun _ => trivial⟩
  · rw [Bool.not_eq_true] at hfal
    rcases hae : getAttendeeWithEvent st (qr.getD "") with _ | ae
    · rw [checkinHandler_notfound hfal hae]
      refine ⟨fun _ => rfl, by simp [hfal], by simp [hfal], ?_, ?_, ?_⟩
      · simp only [hfal, true_and]
        constructor
        · intro h
          exact absurd h (by simp)
        · rintro ⟨a, e, hsome, _⟩
          exact absurd hsome (by simp)
      · simp only [hfal, true_and]
        constructor
        · intro h
          exact absurd h (by simp)
        · rintro ⟨a, e, hsome, _⟩
          exact absurd hsome (by simp)
      · simp only [CheckinResponse.isOk]
        exact ⟨fun _ => Or.inr (Or.inl trivial), fun _ => trivial⟩
    · rcases ae with ⟨a, e⟩
      by_cases hown : e.userId = uid
      · by_cases hp : a.status = "pending" ∨ a.status = "checked_in"
        · have hok := @checkinHandler_advance_isOk st uid qr now ip ua a e hfal hae hown hp
          refine ⟨?_, ?_, ?_, ?_, ?_, ?_⟩
          · intro h
            rw [hok] at h
            exact absurd h (by simp)
          · rw [hfal]
            simp only [iff_false, Bool.false_eq_true]
            exact fun h => CheckinResponse.ne_err_of_isOk hok h
          · constructor
            · intro h
              exact absurd h (CheckinResponse.ne_err_of_isOk hok)
            · rintro ⟨_, hnone⟩
              exact absurd hnone (by simp)
          · constructor
            · intro h
              exact absurd h (CheckinResponse.ne_err_of_isOk hok)
            · rintro ⟨_, a0, e0, hsome, hno⟩
              injection hsome with hsome
              injection hsome with h1 h2
              rw [← h2] at hno
              exact absurd hown hno
          · constructor
            · intro h
              exact absurd h (CheckinResponse.ne_err_of_isOk hok)
            · rintro ⟨_, a0, e0, hsome, _, hout⟩
              injection hsome with hsome
              injection hsome with h1 h2
              rw [← h1] at hout
              rcases hp with hp | hp <;> rw [hout] at hp <;> exact absurd hp (by decide)
          · rw [hok]
            simp only [Bool.true_eq_false, false_iff]
            push_neg
            refine ⟨by rw [hfal]; simp, by simp, ?_, ?_⟩
            · intro a0 e0 hsome
              injection hsome with hsome
              injection hsome with h1 h2
              rw [← h2]
              exact hown
            · intro a0 e0 hsome _
              injection hsome with hsome
              injection hsome with h1 h2
              rw [← h1]
              rcases hp with hp | hp <;> rw [hp] <;> decide
        · push_neg at hp
          obtain ⟨hp1, hp2⟩ := hp
          have hout : a.status = "checked_out" := by
            rcases hstat a (getAttendeeWithEvent_some hae).1 with h | h | h
            · exact absurd h hp1
            · exact absurd h hp2
            · exact h
          rw [checkinHandler_alreadyOut hfal hae hown hp1 hp2]
          refine ⟨fun _ => rfl, by simp [hfal], by simp [hfal], ?_, ?_, ?_⟩
          · simp only [hfal, true_and]
            constructor
            · intro h
              exact absurd h (by simp)
            · rintro ⟨a0, e0, hsome, hno⟩
              injection hsome with hsome
              injection hsome with h1 h2
              rw [← h2] at hno
              exact absurd hown hno
          · simp only [hfal, true_and]
            constructor
            · intro _
              exact ⟨a, e, rfl, hown, hout⟩
            · intro _
              trivial
          · simp only [CheckinResponse.isOk]
            exact ⟨fun _ => Or.inr (Or.inr (Or.inr ⟨a, e, rfl, hown, hout⟩)),
              fun _ => trivial⟩
      · rw [checkinHandler_forbidden hfal hae hown]
        refine ⟨fun _ => rfl, by simp [hfal], by simp [hfal], ?_, ?_, ?_⟩
        · simp only [hfal, true_and]
          exact ⟨fun _ => ⟨a, e, rfl, hown⟩, fun _ => trivial⟩
        · simp only [hfal, true_and]
          constructor
          · intro h
            exact absurd h (by simp)
          · rintro ⟨a0, e0, hsome, hyes, _⟩
            injection hsome with hsome
            injection hsome with h1 h2
            rw [← h2] at hyes
            exact absurd hyes hown
        · simp only [CheckinResponse.isOk]
          exact ⟨fun _ => Or.inr (Or.inr (Or.inl ⟨a, e, rfl, hown⟩)), fun _ => trivial⟩

/-- C3 witness: the missing-QR-code case at the concrete demonstration
state. -/
theorem c3_witness :
    (checkinHandler demoFull (some "alice") none 5 none "ua").1 =
        .err 400 "QR code is required" ↔ jsFalsy none = true :=
  (c3_checkin_failure_cases demoFull "alice" none 5 none "ua" (by decide)).2.1

/-! ## C4: the check-in log -/

theorem bulkImportRows_checkinLogs {eventId : Nat} {rand : Nat → Nat → Nat}
    {nowMs : Nat → Nat} {now : Nat} :
    ∀ (rows : List ImportRow) (i : Nat) (st : AppState),
      (bulkImportRows eventId rand nowMs now rows i st).2.2.checkinLogs =
        st.checkinLogs := by
  intro rows
  induction rows with
  | nil => intro i st; rfl
  | cons row rest ih =>
    intro i st
    unfold bulkImportRows
    dsimp only
    rcases hca : createAttendee st
        { eventId := eventId, name := row.name, studentId := row.studentId
          email := some row.email, faculty := some row.faculty
          major := some row.major
          qrCode := some (ensureUniqueQRCode st (rand i) (nowMs i))
          qrPath := some (qrToDataURL (ensureUniqueQRCode st (rand i) (nowMs i)))
          status := none } now with msg | pair
    · dsimp only
      exact ih (i + 1) st
    · rcases pair with ⟨a, st1⟩
      dsimp only
      rw [ih (i + 1) st1]
      unfold createAttendee at hca
      split at hca
      · exact absurd hca (by simp)
      · injection hca with hca
        injection hca with h1 h2
        rw [← h2]

/-- Every server operation leaves the check-in log table equal to a sublist
of the old rows (each kept row byte-for-byte unchanged) plus newly appended
rows: no operation rewrites an existing log row. -/
theorem step_logs {st st1 : AppState} (s : Step st st1) :
    ∃ (keep : CheckinLog → Bool) (new : List CheckinLog),
      st1.checkinLogs = st.checkinLogs.filter keep ++ new := by
  have hsame : ∀ {y : AppState}, y.checkinLogs = st.checkinLogs →
      ∃ (keep : CheckinLog → Bool) (new : List CheckinLog),
        y.checkinLogs = st.checkinLogs.filter keep ++ new := by
    intro y hy
    exact ⟨fun _ => true, [], by simp [hy]⟩
  cases s with
  | register userId =>
    refine hsame ?_
    unfold upsertUser
    split <;> rfl
  | eventCreate userId body now => exact hsame rfl
  | eventUpdate id p =>
    refine hsame ?_
    unfold updateEventHandler
    split <;> rfl
  | eventDelete id userId =>
    unfold deleteEventHandler
    split
    · refine ⟨fun l =>
        ¬ ((st.attendees.filter (fun a => a.eventId = id)).map (fun a => a.id)).contains
          l.attendeeId, [], ?_⟩
      rw [List.append_nil]
    · exact hsame rfl
  | attendeeCreate eventId body rand nowMs now =>
    refine hsame ?_
    unfold createAttendeeHandler
    split
    · rfl
    · dsimp only
      rcases hca : createAttendee st
          { eventId := eventId, name := body.name, studentId := body.studentId
            email := body.email, faculty := body.faculty, major := body.major
            qrCode := none, qrPath := none, status := none } now with msg | pair
      · rfl
      · rcases pair with ⟨a, st2⟩
        unfold createAttendee at hca
        split at hca
        · exact absurd hca (by simp)
        · injection hca with hca
          injection hca with h1 h2
          rw [← h2]
  | attendeeUpdate id body =>
    refine hsame ?_
    unfold updateAttendeeHandler
    dsimp only
    rcases hu : updateAttendee st id
        { eventId := body.eventId, name := body.name, studentId := body.studentId
          email := body.email, faculty := body.faculty, major := body.major }
        with msg | pair
    · rfl
    · rcases pair with ⟨r, st2⟩
      have := (updateAttendee_ok_frame hu).2.2.1
      rcases r with _ | a
      · exact this
      · exact this
  | attendeeDelete id =>
    unfold deleteAttendeeHandler deleteAttendee
    by_cases hany : st.attendees.any (fun a => a.id = id) = true
    · rw [if_pos hany]
      refine ⟨fun l => ¬ l.attendeeId = id, [], ?_⟩
      rw [List.append_nil]
      all_goals rfl
    · rw [if_neg hany]
      exact hsame rfl
  | attendeeBulkDelete userId ids =>
    unfold bulkDeleteHandler
    split
    · exact hsame rfl
    · dsimp only
      split
      · exact hsame rfl
      · refine ⟨fun l =>
          ¬ ((bulkDeleteValidAttendees st userId ids).map (fun a => a.id)).contains
            l.attendeeId, [], ?_⟩
        rw [List.append_nil]
        all_goals rfl
  | attendeeBulkImport userId eventId rows rand nowMs now =>
    refine hsame ?_
    unfold bulkImportHandler
    rcases hev : getEventById st eventId with _ | event
    · rfl
    · dsimp only
      split
      · rfl
      · split
        · rfl
        · rcases hrec : bulkImportRows eventId rand nowMs now
              (rows.filter (fun r => ¬ r.name = "" ∧ ¬ r.studentId = "")) 0 st
              with ⟨c, f, st2⟩
          have := @bulkImportRows_checkinLogs eventId rand nowMs now
            (rows.filter (fun r => ¬ r.name = "" ∧ ¬ r.studentId = "")) 0 st
          rw [hrec] at this
          exact this
  | checkin userId qrCode now ip ua =>
    rcases hres : checkinHandler st userId qrCode now ip ua with ⟨resp, st2⟩
    dsimp only
    rcases resp with ⟨action, msg, att, ev⟩ | ⟨scode, m⟩
    · rcases userId with _ | u
      · rw [show checkinHandler st none qrCode now ip ua =
            (.err 401 "User ID not found", st) from rfl] at hres
        exact absurd (congrArg Prod.fst hres) (by simp)
      · obtain ⟨a, e, _, _, _, _, _, _, _, hlog, _, _⟩ := checkin_ok_spec hres
        exact ⟨fun _ => true,
          [{ id := st.nextLogId, attendeeId := a.id, action := action
             timestamp := now, ipAddress := ip, userAgent := ua }],
          by rw [hlog]; simp⟩
    · rw [checkin_err_state hres]
      exact hsame rfl
  | qrRegen id rand nowMs =>
    refine hsame ?_
    unfold getAttendeeQrHandler
    rcases ha : getAttendeeById st id with _ | attendee
    · rfl
    · dsimp only
      split
      · rcases hu : updateAttendee st id
            { qrCode := some (some (ensureUniqueQRCode st rand nowMs))
              qrPath := some (some (qrToDataURL (ensureUniqueQRCode st rand nowMs))) }
            with msg | pair
        · rfl
        · rcases pair with ⟨r, st2⟩
          exact (updateAttendee_ok_frame hu).2.2.1
      · split <;> rfl
  | dashboardStatsRead userId now =>
    refine hsame ?_
    unfold dashboardStatsHandler
    dsimp only
    rcases hc : cacheGet st.cache ("stats:" ++ userId) now with _ | v <;> rfl
  | wsOpen clientId userId =>
    refine hsame ?_
    unfold wsConnect
    split
    · rfl
    · split <;> rfl

/-- C4 counterexample: the claim says no operation of the system ever deletes
an existing check-in log record, but deleting an attendee (here, via
`DELETE /api/attendees/:id` on the demonstration state, which holds one log
row) removes that attendee's logs through the schema's ON DELETE CASCADE. -/
theorem c4_counterexample :
    demoCheckedIn.checkinLogs.length = 1 ∧
    (deleteAttendeeHandler demoCheckedIn 1).2.checkinLogs = [] := by
  constructor
  · decide
  · decide

/-- C4 (amended): every successful check-in or check-out transition appends
exactly one log row whose action matches the transition, and no operation
ever rewrites an existing log row — an operation either keeps a log row
unchanged, appends new rows, or (when an attendee or event is deleted)
removes the dependent rows via the schema's ON DELETE CASCADE. -/
theorem c4_log_append_only :
    (∀ (st st2 : AppState) (uid : String) (qr : Option String) (now : Nat)
        (ip : Option String) (ua action msg : String) (att : Attendee) (ev : Event),
      checkinHandler st (some uid) qr now ip ua = (.ok action msg att ev, st2) →
      ∃ a e, getAttendeeWithEvent st (qr.getD "") = some (a, e) ∧
        ((a.status = "pending" ∧ action = "check_in") ∨
          (a.status = "checked_in" ∧ action = "check_out")) ∧
        st2.checkinLogs = st.checkinLogs ++
          [{ id := st.nextLogId, attendeeId := a.id, action := action
             timestamp := now, ipAddress := ip, userAgent := ua }]) ∧
    (∀ (st st1 : AppState), Step st st1 →
      ∃ (keep : CheckinLog → Bool) (new : List CheckinLog),
        st1.checkinLogs = st.checkinLogs.filter keep ++ new) := by
  constructor
  · intro st st2 uid qr now ip ua action msg att ev heq
    obtain ⟨a, e, hae, _, _, _, hdisj, _, _, hlog, _, _⟩ := checkin_ok_spec heq
    exact ⟨a, e, hae, hdisj, hlog⟩
  · intro st st1 s
    exact step_logs s

/-- C4 witness: the demonstration check-in appends exactly its one log row,
and the check-in step satisfies the append-or-cascade shape. -/
theorem c4_witness :
    (∃ a e, getAttendeeWithEvent demoFull ((some "CK_0000000001" : Option String).getD "") = some (a, e) ∧
      ((a.status = "pending" ∧ ("check_in" : String) = "check_in") ∨
        (a.status = "checked_in" ∧ ("check_in" : String) = "check_out")) ∧
      demoCheckedIn.checkinLogs = demoFull.checkinLogs ++
        [{ id := demoFull.nextLogId, attendeeId := a.id, action := "check_in"
           timestamp := 1000, ipAddress := none, userAgent := "ua" }]) ∧
    (∃ (keep : CheckinLog → Bool) (new : List CheckinLog),
      demoCheckedIn.checkinLogs = demoFull.checkinLogs.filter keep ++ new) :=
  ⟨c4_log_append_only.1 demoFull demoCheckedIn "alice" (some "CK_0000000001")
      1000 none "ua" "check_in" "Check-in successful!"
      { demoAttendeeRow with status := "checked_in" } demoEventRow (by decide),
   c4_log_append_only.2 demoFull demoCheckedIn
     (.checkin demoFull (some "alice") (some "CK_0000000001") 1000 none "ua")⟩

/-! ## C2: idempotency of the status-transition endpoint -/

theorem find?_map_of_pred {α : Type} (f : α → α) (p : α → Bool)
    (h : ∀ x, p (f x) = p x) :
    ∀ l : List α, (l.map f).find? p = (l.find? p).map f := by
  intro l
  induction l with
  | nil => rfl
  | cons x xs ih =>
    by_cases hx : p x = true
    · rw [List.map_cons, List.find?_cons_of_pos _ (by rw [h x]; exact hx),
        List.find?_cons_of_pos _ hx]
      rfl
    · rw [List.map_cons, List.find?_cons_of_neg _ (by rw [h x]; exact hx),
        List.find?_cons_of_neg _ hx]
      exact ih

theorem getAttendeeWithEvent_parts {st : AppState} {qr : String} {a : Attendee}
    {e : Event} (h : getAttendeeWithEvent st qr = some (a, e)) :
    getAttendeeByQrCode st qr = some a ∧ getEventById st a.eventId = some e := by
  unfold getAttendeeWithEvent at h
  rcases hf : getAttendeeByQrCode st qr with _ | a0
  · rw [hf] at h
    exact absurd h (by simp)
  · rw [hf] at h
    dsimp only at h
    rcases he : getEventById st a0.eventId with _ | e0
    · rw [he] at h
      exact absurd h (by simp)
    · rw [he] at h
      injection h with h
      injection h with h1 h2
      subst h1
      subst h2
      exact ⟨rfl, he⟩

theorem checkinPatch_qrCode (s : String) (now : Nat) :
    (checkinPatch s now).qrCode = none := by
  unfold checkinPatch
  split <;> rfl

theorem checkinPatch_eventId (s : String) (now : Nat) :
    (checkinPatch s now).eventId = none := by
  unfold checkinPatch
  split <;> rfl

theorem applyPatch_eventId (a : Attendee) (p : AttendeePatch) :
    (applyPatch a p).eventId = p.eventId.getD a.eventId := rfl

/-- After a check-in transition on attendee `a`, looking the QR code up again
finds the patched row, and its event is unchanged. -/
theorem getAttendeeWithEvent_after_patch {st st1 : AppState} {qr : String}
    {a : Attendee} {e : Event} {now : Nat}
    (hae : getAttendeeWithEvent st qr = some (a, e))
    (hatt : st1.attendees = st.attendees.map
      (fun b => if b.id = a.id then applyPatch b (checkinPatch a.status now) else b))
    (hev : st1.events = st.events) :
    getAttendeeWithEvent st1 qr =
      some (applyPatch a (checkinPatch a.status now), e) := by
  obtain ⟨hf, he⟩ := getAttendeeWithEvent_parts hae
  have hqc : getAttendeeByQrCode st1 qr =
      some (applyPatch a (checkinPatch a.status now)) := by
    unfold getAttendeeByQrCode at hf ⊢
    rw [hatt, find?_map_of_pred _ _ ?_, hf]
    · simp
    · intro x
      by_cases hx : x.id = a.id
      · rw [if_pos hx]
        simp [applyPatch_qrCode, checkinPatch_qrCode]
      · rw [if_neg hx]
  unfold getAttendeeWithEvent
  rw [hqc]
  dsimp only
  rw [applyPatch_eventId, checkinPatch_eventId]
  simp only [Option.getD_none]
  unfold getEventById at he ⊢
  rw [hev, he]

/-- C2 counterexample: the claim says two identical submissions leave the
attendee as one submission does, but scanning a pending attendee once yields
"checked_in" while scanning twice yields "checked_out". -/
theorem c2_counterexample :
    ((checkinHandler demoFull (some "alice") (some "CK_0000000001") 1000 none
        "ua").2.attendees.map (fun a => a.status) = ["checked_in"]) ∧
    ((checkinHandler
        (checkinHandler demoFull (some "alice") (some "CK_0000000001") 1000 none "ua").2
        (some "alice") (some "CK_0000000001") 1000 none "ua").2.attendees.map
      (fun a => a.status) = ["checked_out"]) := by
  constructor
  · decide
  · decide

/-- C2 (amended): the endpoint is idempotent for every starting status except
"pending": when the submitted QR code matches no attendee, or the matched
attendee's status is not "pending", a second identical submission leaves the
entire state exactly as the first one did. For a "pending" attendee two
submissions advance it to "checked_out" while one yields "checked_in". -/
theorem c2_idempotent_unless_pending :
    ∀ (st : AppState) (uid : String) (qr : Option String) (now1 now2 : Nat)
      (ip1 ip2 : Option String) (ua1 ua2 : String),
      (∀ a e, getAttendeeWithEvent st (qr.getD "") = some (a, e) →
        ¬ a.status = "pending") →
      (checkinHandler (checkinHandler st (some uid) qr now1 ip1 ua1).2
          (some uid) qr now2 ip2 ua2).2 =
        (checkinHandler st (some uid) qr now1 ip1 ua1).2 := by
  intro st uid qr now1 now2 ip1 ip2 ua1 ua2 hnp
  by_cases hfal : jsFalsy qr = true
  · rw [@checkinHandler_noqr st uid qr now1 ip1 ua1 hfal]
    dsimp only
    rw [@checkinHandler_noqr st uid qr now2 ip2 ua2 hfal]
  · rw [Bool.not_eq_true] at hfal
    rcases hae : getAttendeeWithEvent st (qr.getD "") with _ | ae
    · rw [@checkinHandler_notfound st uid qr now1 ip1 ua1 hfal hae]
      dsimp only
      rw [@checkinHandler_notfound st uid qr now2 ip2 ua2 hfal hae]
    · rcases ae with ⟨a, e⟩
      have hnp1 : ¬ a.status = "pending" := hnp a e hae
      by_cases hown : e.userId = uid
      · by_cases hcin : a.status = "checked_in"
        · rcases hres : checkinHandler st (some uid) qr now1 ip1 ua1 with ⟨resp, st1⟩
          dsimp only
          rcases resp with ⟨action, msg, att, ev⟩ | ⟨sc, m⟩
          · obtain ⟨a0, e0, hae0, _, _, _, _, _, hatt, _, _, hevs⟩ :=
              checkin_ok_spec hres
            rw [hae] at hae0
            injection hae0 with hae0
            injection hae0 with h1 h2
            subst h1
            subst h2
            have hlook1 := getAttendeeWithEvent_after_patch hae hatt hevs
            have hsOut : (applyPatch a (checkinPatch a.status now1)).status
                = "checked_out" := by
              rw [applyPatch_status]
              unfold checkinPatch
              rw [if_neg hnp1]
              rfl
            rw [checkinHandler_alreadyOut hfal hlook1 hown
              (by rw [hsOut]; decide) (by rw [hsOut]; decide)]
          · have hok := @checkinHandler_advance_isOk st uid qr now1 ip1 ua1 a e
              hfal hae hown (Or.inr hcin)
            rw [hres] at hok
            exact absurd hok (by simp [CheckinResponse.isOk])
        · rw [@checkinHandler_alreadyOut st uid qr now1 ip1 ua1 a e hfal hae hown hnp1 hcin]
          dsimp only
          rw [@checkinHandler_alreadyOut st uid qr now2 ip2 ua2 a e hfal hae hown hnp1 hcin]
      · rw [@checkinHandler_forbidden st uid qr now1 ip1 ua1 a e hfal hae hown]
        dsimp only
        rw [@checkinHandler_forbidden st uid qr now2 ip2 ua2 a e hfal hae hown]

/-- C2 witness: a second scan of the already-checked-in demonstration
attendee leaves the state exactly as the first scan did. -/
theorem c2_witness :
    (checkinHandler (checkinHandler demoCheckedIn (some "alice")
        (some "CK_0000000001") 2000 none "ua").2
      (some "alice") (some "CK_0000000001") 3000 none "ua").2 =
    (checkinHandler demoCheckedIn (some "alice") (some "CK_0000000001")
      2000 none "ua").2 :=
  c2_idempotent_unless_pending demoCheckedIn "alice" (some "CK_0000000001")
    2000 3000 none none "ua" "ua" (by
      intro a e hsome hpend
      rw [show getAttendeeWithEvent demoCheckedIn
          ((some "CK_0000000001" : Option String).getD "") =
          some ({ demoAttendeeRow with status := "checked_in", checkinTime := some 1000 },
            demoEventRow) from by decide] at hsome
      injection hsome with hsome
      injection hsome with h1 h2
      rw [← h1] at hpend
      exact absurd hpend (by decide))

/-! ## C5: uniqueness of QR codes -/

/-- A reachable state whose attendee table holds both the padded random code
CK_0000000001 and the timestamp-fallback code CK_42: the second bulk-import
row exhausts its ten (identical) random draws and falls back to the
timestamp. -/
def c5State : AppState :=
  (bulkImportHandler demoEvents "alice" 1
    [demoRow, { name := "Tran Thi B", studentId := "SV002" }]
    demoRand demoNowMs 0).2

theorem c5State_reachable : Reachable c5State :=
  .step (.step (.step .init (.register initialState "alice"))
      (.eventCreate demoUsers "alice" demoEventBody 0))
    (.attendeeBulkImport demoEvents "alice" 1
      [demoRow, { name := "Tran Thi B", studentId := "SV002" }]
      demoRand demoNowMs 0)

/-- C5 counterexample: at the reachable state `c5State`, every random draw
yields the already-held code CK_0000000001, so `ensureUniqueQRCode` falls
back to the timestamp code CK_42 — which is also already held by an
attendee. The claim that `ensureUniqueQRCode` never returns a code already
held by an existing attendee is therefore false. -/
theorem c5_counterexample :
    Reachable c5State ∧
    ensureUniqueQRCode c5State (fun _ => 1) 42 = "CK_42" ∧
    (getAttendeeByQrCode c5State
      (ensureUniqueQRCode c5State (fun _ => 1) 42)).isSome = true := by
  refine ⟨c5State_reachable, ?_, ?_⟩
  · decide
  · decide

/-- C5 (amended): in every reachable state no two distinct attendee rows hold
the same non-null QR code — the schema's unique constraint rejects any
insert or update that would duplicate one — and `ensureUniqueQRCode` returns
an unheld code whenever at least one of its ten random draws is unheld; only
its timestamp fallback can return a code that is already held. -/
theorem c5_qr_uniqueness :
    (∀ st, Reachable st → st.attendees.Pairwise QrOk) ∧
    (∀ (st : AppState) (rand : Nat → Nat) (nowMs : Nat),
      (∃ i, i < 10 ∧ getAttendeeByQrCode st (generateUniqueQRCode (rand i)) = none) →
      getAttendeeByQrCode st (ensureUniqueQRCode st rand nowMs) = none) := by
  constructor
  · intro st hreach
    exact (wf_reachable hreach).qrUnique
  · intro st rand nowMs ⟨i, hi, hnone⟩
    unfold ensureUniqueQRCode
    rcases hfind : (List.range 10).find?
        (fun j => (getAttendeeByQrCode st (generateUniqueQRCode (rand j))).isNone)
        with _ | j
    · rw [List.find?_eq_none] at hfind
      have := hfind i (List.mem_range.mpr hi)
      rw [hnone] at this
      exact (this rfl).elim
    · have := List.find?_some hfind
      simp only [Option.isNone_iff_eq_none, decide_eq_true_eq] at this
      exact this

/-- C5 witness: the reachable demonstration state has pairwise-distinct QR
codes, and on a state where the first draw is fresh `ensureUniqueQRCode`
returns an unheld code. -/
theorem c5_witness :
    demoFull.attendees.Pairwise QrOk ∧
    getAttendeeByQrCode demoEvents (ensureUniqueQRCode demoEvents (fun _ => 1) 42) = none :=
  ⟨c5_qr_uniqueness.1 demoFull demoFull_reachable,
   c5_qr_uniqueness.2 demoEvents (fun _ => 1) 42 ⟨0, by decide, by decide⟩⟩

/-! ## C6: collaborators and the owner-only check-in -/

/-- A state in which "alice" owns the event and "bob" holds a collaborator
grant with the check-in permission (as the client UI would record it). -/
def c6State : AppState :=
  { users := ["alice", "bob"], events := [demoEventRow]
    attendees := [demoAttendeeRow], checkinLogs := []
    collaborators := [{ id := 1, eventId := 1, userId := "bob"
                        role := "collaborator", permissions := ["view", "checkin"]
                        invitedBy := some "alice" }]
    cache := [], clients := []
    nextEventId := 2, nextAttendeeId := 2, nextLogId := 1 }

theorem checkin_ok_owner {st : AppState} {uid : String} {qr : Option String}
    {now : Nat} {ip : Option String} {ua : String}
    (hok : (checkinHandler st (some uid) qr now ip ua).1.isOk = true) :
    ∃ a e, getAttendeeWithEvent st (qr.getD "") = some (a, e) ∧ e.userId = uid := by
  rcases hres : checkinHandler st (some uid) qr now ip ua with ⟨resp, st2⟩
  rw [hres] at hok
  rcases resp with ⟨action, msg, att, ev⟩ | ⟨sc, m⟩
  · obtain ⟨a, e, hae, _, hown, _⟩ := checkin_ok_spec hres
    exact ⟨a, e, hae, hown⟩
  · exact absurd hok (by simp [CheckinResponse.isOk])

/-- C6 counterexample: in no state whatsoever — reachable or not — does a
requester who is not the event's owner successfully record a check-in, even
when a collaborator record grants that requester the "checkin" permission;
and concretely, "bob", a collaborator with the check-in permission on
"alice"'s event, is rejected with 403 and the state is unchanged. The server
under `src/` has no collaborator routes or tables; only the client UI defines
the permission values. -/
theorem c6_counterexample :
    (¬ ∃ (st : AppState) (uid : String) (qr : Option String) (now : Nat)
        (ip : Option String) (ua : String) (c : Collaborator) (a : Attendee) (e : Event),
        c ∈ st.collaborators ∧ "checkin" ∈ c.permissions ∧ c.userId = uid ∧
        getAttendeeWithEvent st (qr.getD "") = some (a, e) ∧ c.eventId = e.id ∧
        ¬ e.userId = uid ∧
        (checkinHandler st (some uid) qr now ip ua).1.isOk = true) ∧
    checkinHandler c6State (some "bob") (some "CK_0000000001") 1000 none "ua" =
      (.err 403 "Bạn không có quyền check-in cho sự kiện này", c6State) := by
  constructor
  · rintro ⟨st, uid, qr, now, ip, ua, c, a, e, _, _, _, hae, _, hown, hok⟩
    obtain ⟨a0, e0, hae0, hown0⟩ := checkin_ok_owner hok
    rw [hae] at hae0
    injection hae0 with hae0
    injection hae0 with h1 h2
    rw [← h2] at hown0
    exact hown hown0
  · decide

/-- C6 (amended): collaborator permissions (view / checkin / manage_attendees
/ edit_event) exist only in the client UI; the check-in endpoint authorizes
solely the event owner. A successful check-in implies the requester owns the
scanned attendee's event, and any non-owner request — whatever collaborator
permissions are recorded — is rejected with 403, leaving the state
unchanged. -/
theorem c6_owner_only :
    ∀ (st : AppState) (uid : String) (qr : Option String) (now : Nat)
      (ip : Option String) (ua : String),
      ((checkinHandler st (some uid) qr now ip ua).1.isOk = true →
        ∃ a e, getAttendeeWithEvent st (qr.getD "") = some (a, e) ∧ e.userId = uid) ∧
      (∀ a e, jsFalsy qr = false →
        getAttendeeWithEvent st (qr.getD "") = some (a, e) → ¬ e.userId = uid →
        checkinHandler st (some uid) qr now ip ua =
          (.err 403 "Bạn không có quyền check-in cho sự kiện này", st)) := by
  intro st uid qr now ip ua
  constructor
  · exact checkin_ok_owner
  · intro a e hfal hae hown
    exact checkinHandler_forbidden hfal hae hown

/-- C6 witness: at the collaborator state, "alice"'s successful scan implies
ownership, and "bob"'s scan is rejected with 403. -/
theorem c6_witness :
    (∃ a e, getAttendeeWithEvent c6State
        ((some "CK_0000000001" : Option String).getD "") = some (a, e) ∧
      e.userId = "alice") ∧
    checkinHandler c6State (some "bob") (some "CK_0000000001") 7 none "x" =
      (.err 403 "Bạn không có quyền check-in cho sự kiện này", c6State) :=
  ⟨(c6_owner_only c6State "alice" (some "CK_0000000001") 7 none "x").1 (by decide),
   (c6_owner_only c6State "bob" (some "CK_0000000001") 7 none "x").2
     demoAttendeeRow demoEventRow (by decide) (by decide) (by decide)⟩

/-! ## C7: per-user isolation of the WebSocket broadcasts -/

/-- C7: each of the three broadcast operations delivers its message to
exactly the registered clients whose `userId` matches the target user and
whose socket is open — such a client gets the one message appended to its
delivery list — while every other client (other user, or socket not open) is
completely untouched and in particular never receives the message. -/
theorem c7_broadcast_isolation :
    ∀ (clients : List WSClient) (uid : String) (data : BroadcastData)
      (stats : DashboardStats) (eid : Nat) (att : Attendee),
      List.Forall₂ (fun c c1 =>
          (c.userId = uid ∧ c.readyState = wsOPEN →
            c1 = { c with sent := c.sent ++ [WSMessage.checkinUpdate data] }) ∧
          (¬ (c.userId = uid ∧ c.readyState = wsOPEN) → c1 = c))
        clients (broadcastCheckinUpdate clients uid data) ∧
      List.Forall₂ (fun c c1 =>
          (c.userId = uid ∧ c.readyState = wsOPEN →
            c1 = { c with sent := c.sent ++ [WSMessage.statsUpdate stats] }) ∧
          (¬ (c.userId = uid ∧ c.readyState = wsOPEN) → c1 = c))
        clients (broadcastStatsUpdate clients uid stats) ∧
      List.Forall₂ (fun c c1 =>
          (c.userId = uid ∧ c.readyState = wsOPEN →
            c1 = { c with sent := c.sent ++ [WSMessage.attendeeUpdate eid att] }) ∧
          (¬ (c.userId = uid ∧ c.readyState = wsOPEN) → c1 = c))
        clients (broadcastAttendeeUpdate clients uid eid att) := by
  intro clients uid data stats eid att
  refine ⟨?_, ?_, ?_⟩
  · unfold broadcastCheckinUpdate
    rw [List.forall₂_map_right_iff, List.forall₂_same]
    intro c hc
    exact ⟨fun h => by rw [if_pos h], fun h => by rw [if_neg h]⟩
  · unfold broadcastStatsUpdate
    rw [List.forall₂_map_right_iff, List.forall₂_same]
    intro c hc
    exact ⟨fun h => by rw [if_pos h], fun h => by rw [if_neg h]⟩
  · unfold broadcastAttendeeUpdate
    rw [List.forall₂_map_right_iff, List.forall₂_same]
    intro c hc
    exact ⟨fun h => by rw [if_pos h], fun h => by rw [if_neg h]⟩

/-- C7 witness: with one open client of "alice", one open client of "bob" and
one closed client of "alice", a broadcast to "alice" reaches exactly the
first client. -/
theorem c7_witness :
    List.Forall₂ (fun c c1 =>
        (c.userId = "alice" ∧ c.readyState = wsOPEN →
          c1 = { c with sent := c.sent ++ [WSMessage.statsUpdate
            { totalEvents := 1, totalStudents := 1, todayCheckins := 0, activeEvents := 1 }] }) ∧
        (¬ (c.userId = "alice" ∧ c.readyState = wsOPEN) → c1 = c))
      [{ clientId := "c1", userId := "alice", readyState := wsOPEN, sent := [] },
       { clientId := "c2", userId := "bob", readyState := wsOPEN, sent := [] },
       { clientId := "c3", userId := "alice", readyState := 3, sent := [] }]
      (broadcastStatsUpdate
        [{ clientId := "c1", userId := "alice", readyState := wsOPEN, sent := [] },
         { clientId := "c2", userId := "bob", readyState := wsOPEN, sent := [] },
         { clientId := "c3", userId := "alice", readyState := 3, sent := [] }]
        "alice"
        { totalEvents := 1, totalStudents := 1, todayCheckins := 0, activeEvents := 1 }) :=
  (c7_broadcast_isolation
    [{ clientId := "c1", userId := "alice", readyState := wsOPEN, sent := [] },
     { clientId := "c2", userId := "bob", readyState := wsOPEN, sent := [] },
     { clientId := "c3", userId := "alice", readyState := 3, sent := [] }]
    "alice"
    { log := { id := 1, attendeeId := 1, action := "check_in", timestamp := 0
               ipAddress := none, userAgent := "" }
      attendee := demoAttendeeRow, event := demoEventRow
      action := "check_in", timestamp := 0 }
    { totalEvents := 1, totalStudents := 1, todayCheckins := 0, activeEvents := 1 }
    1 demoAttendeeRow).2.1

/-! ## C8: the dashboard-statistics cache -/

theorem cacheGet_after_set (cache : List (String × CacheEntry)) (key : String)
    (v : DashboardStats) (ttl now t : Nat) :
    cacheGet (cacheSet cache key v ttl now) key t =
      if t < now + ttl then some v else none := by
  unfold cacheGet cacheSet
  rw [List.find?_cons_of_pos _ (by simp)]

theorem cacheGet_after_invalidate (cache : List (String × CacheEntry))
    (key : String) (t : Nat) :
    cacheGet (cacheInvalidate cache key) key t = none := by
  unfold cacheGet cacheInvalidate
  rcases hf : (cache.filter (fun kv => ¬ kv.1 = key)).find? (fun kv => kv.1 = key)
      with _ | kv
  · rw [hf]
  · rw [hf]
    have hmem := List.mem_of_find?_eq_some hf
    have hp := List.find?_some hf
    rw [List.mem_filter] at hmem
    rw [decide_eq_true_eq] at hp
    rw [hp] at hmem
    simp at hmem

theorem dashboardStatsHandler_compute {st : AppState} {uid : String} {now : Nat}
    (hc : cacheGet st.cache ("stats:" ++ uid) now = none) :
    dashboardStatsHandler st uid now =
      (getDashboardStats st uid (dateOf now),
       { st with cache := (cacheSet st.cache ("stats:" ++ uid)
           (getDashboardStats st uid (dateOf now)) 5000 now) }) := by
  unfold dashboardStatsHandler
  dsimp only
  rw [hc]

theorem bulkDelete_ok_cache {st st2 : AppState} {uid : String} {ids : List Nat}
    {res : Nat × Nat}
    (hok : bulkDeleteHandler st uid ids = (.ok res, st2)) :
    st2.cache = cacheInvalidate st.cache ("stats:" ++ uid) := by
  unfold bulkDeleteHandler at hok
  split at hok
  · exact absurd (congrArg Prod.fst hok) (by simp)
  · dsimp only at hok
    split at hok
    · exact absurd (congrArg Prod.fst hok) (by simp)
    · have := congrArg Prod.snd hok
      dsimp only at this
      rw [← this]
      rfl

/-- C8: the dashboard-statistics read serves the cached value whenever an
(unexpired) entry is present for the key `stats:` + userId and then leaves
the state alone; otherwise it computes the stats from the database and
stores them under that key with a 5000 ms time-to-live (still served 4999 ms
later, gone at 5000 ms). Every successful check-in transition and every
successful bulk attendee deletion removes that user's entry, so the next
stats read recomputes from the database. -/
theorem c8_stats_cache :
    ∀ (st : AppState) (uid : String) (now : Nat),
      (∀ v, cacheGet st.cache ("stats:" ++ uid) now = some v →
        dashboardStatsHandler st uid now = (v, st)) ∧
      (cacheGet st.cache ("stats:" ++ uid) now = none →
        (dashboardStatsHandler st uid now).1 = getDashboardStats st uid (dateOf now) ∧
        (dashboardStatsHandler st uid now).2.cache =
          cacheSet st.cache ("stats:" ++ uid)
            (getDashboardStats st uid (dateOf now)) 5000 now ∧
        cacheGet (dashboardStatsHandler st uid now).2.cache ("stats:" ++ uid)
            (now + 4999) = some (getDashboardStats st uid (dateOf now)) ∧
        cacheGet (dashboardStatsHandler st uid now).2.cache ("stats:" ++ uid)
            (now + 5000) = none) ∧
      (∀ (st2 : AppState) (qr : Option String) (now1 : Nat) (ip : Option String)
          (ua action msg : String) (att : Attendee) (ev : Event),
        checkinHandler st (some uid) qr now1 ip ua = (.ok action msg att ev, st2) →
        cacheGet st2.cache ("stats:" ++ uid) now = none ∧
        ∀ now2, (dashboardStatsHandler st2 uid now2).1 =
          getDashboardStats st2 uid (dateOf now2)) ∧
      (∀ (ids : List Nat) (res : Nat × Nat) (st2 : AppState),
        bulkDeleteHandler st uid ids = (.ok res, st2) →
        cacheGet st2.cache ("stats:" ++ uid) now = none ∧
        ∀ now2, (dashboardStatsHandler st2 uid now2).1 =
          getDashboardStats st2 uid (dateOf now2)) := by
  intro st uid now
  refine ⟨?_, ?_, ?_, ?_⟩
  · intro v hv
    unfold dashboardStatsHandler
    dsimp only
    rw [hv]
  · intro hc
    rw [dashboardStatsHandler_compute hc]
    refine ⟨rfl, rfl, ?_, ?_⟩
    · rw [cacheGet_after_set, if_pos (by omega)]
    · rw [cacheGet_after_set, if_neg (by omega)]
  · intro st2 qr now1 ip ua action msg att ev heq
    obtain ⟨a, e, _, _, _, _, _, _, _, _, hcache, _⟩ := checkin_ok_spec heq
    rw [hcache]
    refine ⟨cacheGet_after_invalidate .., ?_⟩
    intro now2
    have hc2 : cacheGet st2.cache ("stats:" ++ uid) now2 = none := by
      rw [hcache]
      exact cacheGet_after_invalidate ..
    rw [dashboardStatsHandler_compute hc2]
  · intro ids res st2 hok
    have hcache := bulkDelete_ok_cache hok
    rw [hcache]
    refine ⟨cacheGet_after_invalidate .., ?_⟩
    intro now2
    have hc2 : cacheGet st2.cache ("stats:" ++ uid) now2 = none := by
      rw [hcache]
      exact cacheGet_after_invalidate ..
    rw [dashboardStatsHandler_compute hc2]

/-- C8 witness: at the demonstration state after a check-in, the cache entry
of "alice" is absent and the stats read computes from the database. -/
theorem c8_witness :
    cacheGet demoCheckedIn.cache ("stats:" ++ "alice") 2000 = none ∧
    ∀ now2, (dashboardStatsHandler demoCheckedIn "alice" now2).1 =
      getDashboardStats demoCheckedIn "alice" (dateOf now2) :=
  (c8_stats_cache demoFull "alice" 2000).2.2.1 demoCheckedIn
    (some "CK_0000000001") 1000 none "ua" "check_in" "Check-in successful!"
    { demoAttendeeRow with status := "checked_in" } demoEventRow (by decide)

/-! ## C9: the recent-activity feed -/

theorem mem_insertByKeyDesc {α : Type} (key : α → Nat) (x z : α) :
    ∀ l : List α, z ∈ insertByKeyDesc key x l ↔ z = x ∨ z ∈ l := by
  intro l
  induction l with
  | nil => simp [insertByKeyDesc]
  | cons y ys ih =>
    unfold insertByKeyDesc
    split
    · rw [List.mem_cons, ih, List.mem_cons]
      tauto
    · simp

theorem pairwise_insertByKeyDesc {α : Type} (key : α → Nat) (x : α) :
    ∀ l : List α, List.Pairwise (fun a b => key b ≤ key a) l →
      List.Pairwise (fun a b => key b ≤ key a) (insertByKeyDesc key x l) := by
  intro l
  induction l with
  | nil =>
    intro _
    simp [insertByKeyDesc]
  | cons y ys ih =>
    intro h
    rw [List.pairwise_cons] at h
    obtain ⟨h1, h2⟩ := h
    unfold insertByKeyDesc
    split
    case isTrue hxy =>
      rw [List.pairwise_cons]
      refine ⟨?_, ih h2⟩
      intro z hz
      rw [mem_insertByKeyDesc] at hz
      rcases hz with hz | hz
      · rw [hz]
        exact hxy
      · exact h1 z hz
    case isFalse hxy =>
      rw [List.pairwise_cons]
      refine ⟨?_, List.pairwise_cons.mpr ⟨h1, h2⟩⟩
      intro z hz
      rw [List.mem_cons] at hz
      rcases hz with hz | hz
      · rw [hz]
        omega
      · have := h1 z hz
        omega

theorem pairwise_sortByKeyDesc {α : Type} (key : α → Nat) :
    ∀ l : List α, List.Pairwise (fun a b => key b ≤ key a) (sortByKeyDesc key l) := by
  intro l
  induction l with
  | nil => simp [sortByKeyDesc]
  | cons x xs ih =>
    unfold sortByKeyDesc
    exact pairwise_insertByKeyDesc key x _ ih

theorem length_insertByKeyDesc {α : Type} (key : α → Nat) (x : α) :
    ∀ l : List α, (insertByKeyDesc key x l).length = l.length + 1 := by
  intro l
  induction l with
  | nil => rfl
  | cons y ys ih =>
    unfold insertByKeyDesc
    split
    · rw [List.length_cons, ih, List.length_cons]
    · rfl

theorem length_sortByKeyDesc {α : Type} (key : α → Nat) :
    ∀ l : List α, (sortByKeyDesc key l).length = l.length := by
  intro l
  induction l with
  | nil => rfl
  | cons x xs ih =>
    unfold sortByKeyDesc
    rw [length_insertByKeyDesc, ih, List.length_cons]

theorem mem_sortByKeyDesc {α : Type} (key : α → Nat) (z : α) :
    ∀ l : List α, z ∈ sortByKeyDesc key l ↔ z ∈ l := by
  intro l
  induction l with
  | nil => simp [sortByKeyDesc]
  | cons x xs ih =>
    unfold sortByKeyDesc
    rw [mem_insertByKeyDesc, ih, List.mem_cons]

theorem mem_joinCheckinRows {st : AppState} {r : RecentCheckin}
    (h : r ∈ joinCheckinRows st) :
    r.log ∈ st.checkinLogs ∧ r.attendee ∈ st.attendees ∧ r.event ∈ st.events ∧
    r.attendee.id = r.log.attendeeId ∧ r.event.id = r.attendee.eventId := by
  unfold joinCheckinRows at h
  rw [List.mem_flatMap] at h
  obtain ⟨l, hl, h⟩ := h
  rw [List.mem_flatMap] at h
  obtain ⟨a, ha, h⟩ := h
  rw [List.mem_map] at h
  obtain ⟨e, he, hr⟩ := h
  rw [List.mem_filter] at ha he
  obtain ⟨ha, haid⟩ := ha
  obtain ⟨he, heid⟩ := he
  rw [decide_eq_true_eq] at haid heid
  rw [← hr]
  exact ⟨hl, ha, he, haid, heid⟩

/-- C9 counterexample: the claim says at most `limit` records are returned,
with the default 10 applying only when the parameter is absent or not a
number; but `parseInt(limit) || 10` also replaces an explicit 0 by 10, so
requesting `limit=0` still returns records — here one record instead of at
most zero. -/
theorem c9_counterexample :
    (recentCheckinsHandler demoCheckedIn "alice" (some 0)).length = 1 ∧
    ¬ (recentCheckinsHandler demoCheckedIn "alice" (some 0)).length ≤ 0 := by
  constructor
  · decide
  · decide

/-- C9 (amended): the recent-activity feed returns at most `limit` rows,
where `limit` defaults to 10 when the parameter is absent, not a number, or
parses to 0 (a JavaScript falsy value); the rows are ordered by descending
timestamp, and every row joins a stored log with its attendee and that
attendee's event, owned by the requesting user. (Non-negative limits only;
the database would reject a negative LIMIT.) -/
theorem c9_recent_feed :
    ∀ (st : AppState) (uid : String) (limitParam : Option Int),
      (∀ n, limitParam = some n → 0 ≤ n) →
      (recentCheckinsHandler st uid limitParam).length ≤
        (match limitParam with
          | some n => if n = 0 then (10 : Int) else n
          | none => 10).toNat ∧
      List.Pairwise (fun r s => s.log.timestamp ≤ r.log.timestamp)
        (recentCheckinsHandler st uid limitParam) ∧
      ∀ r ∈ recentCheckinsHandler st uid limitParam,
        r.log ∈ st.checkinLogs ∧ r.attendee ∈ st.attendees ∧ r.event ∈ st.events ∧
        r.attendee.id = r.log.attendeeId ∧ r.event.id = r.attendee.eventId ∧
        r.event.userId = uid := by
  intro st uid limitParam hnn
  unfold recentCheckinsHandler getRecentCheckinsByUserId
  dsimp only
  refine ⟨?_, ?_, ?_⟩
  · rw [List.length_take]
    exact min_le_left _ _
  · exact List.Pairwise.sublist (List.take_sublist _ _)
      (pairwise_sortByKeyDesc (fun r : RecentCheckin => r.log.timestamp) _)
  · intro r hr
    have hr1 := (List.take_sublist _ _).mem hr
    rw [mem_sortByKeyDesc, List.mem_filter] at hr1
    obtain ⟨hr2, hown⟩ := hr1
    rw [decide_eq_true_eq] at hown
    obtain ⟨h1, h2, h3, h4, h5⟩ := mem_joinCheckinRows hr2
    exact ⟨h1, h2, h3, h4, h5, hown⟩

/-- C9 witness: with the limit parameter absent at the demonstration state,
the feed respects the default limit of 10, descending order, and ownership. -/
theorem c9_witness :
    (recentCheckinsHandler demoCheckedIn "alice" none).length ≤
      (match (none : Option Int) with
        | some n => if n = 0 then (10 : Int) else n
        | none => 10).toNat ∧
    List.Pairwise (fun r s => s.log.timestamp ≤ r.log.timestamp)
      (recentCheckinsHandler demoCheckedIn "alice" none) ∧
    ∀ r ∈ recentCheckinsHandler demoCheckedIn "alice" none,
      r.log ∈ demoCheckedIn.checkinLogs ∧ r.attendee ∈ demoCheckedIn.attendees ∧
      r.event ∈ demoCheckedIn.events ∧ r.attendee.id = r.log.attendeeId ∧
      r.event.id = r.attendee.eventId ∧ r.event.userId = "alice" :=
  c9_recent_feed demoCheckedIn "alice" none (fun _ hn => nomatch hn)

end EMS
